import Mathlib

/-!
# A shallow embedding of the JISP interpreter (src/jisp.c)

JISP is a stack-based virtual machine embedded in a single mutable JSON
document (built on the yyjson C library).  This file embeds the document
model, the yyjson primitives the interpreter relies on, the residual
(JSON Patch) logging machinery, the opcode library, and the entrypoint
walker, and proves properties of that embedding.

Modelling conventions:
* JSON numbers are split, as in yyjson, into integers (`JVal.int`, the
  sint/uint subtypes collapsed to `Int`; parsed payloads are int64) and
  doubles (`JVal.real`).  Every double the modelled flows construct is
  an integral value produced from int64 operands (the `add_two_top` sum
  and patch value), so `JVal.real` carries the exact integer value of
  that IEEE-754 binary64 double.  The rounding the C performs when it
  casts an int64 payload to double and adds in double precision is
  modelled exactly by `doubleOfInt` and `doubleAdd` (round to nearest,
  ties to even, 53 significant bits).
* yyjson mutable objects are ordered key/value lists; `yyjson_mut_obj_add_val`
  and friends append without checking for duplicate keys, and the lookup
  functions return the first match.  The embedding reproduces this.
* A deep copy of a value into a document is the identity on the pure tree.
* In-place mutation through a held `yyjson_mut_val *` is modelled as
  replacement of the first matching binding (`objSetFirst`), which agrees
  with the C as long as no operation replaces the binding itself; the C
  code never does.
* `jisp_fatal` terminates the process after dumping the document; it is
  modelled as a `Res.fatal` result carrying the message and the dumped
  document (`none` where the C passes a NULL document).
* The walker and the opcodes that re-enter it are given explicit fuel;
  `Res.outOfFuel` marks exhaustion.  `load`/`store` perform file I/O and
  are marked `Res.unmodeledIo`.
-/

/-- A JSON value, mirroring `yyjson_mut_val`: the NUM type keeps its
sint/uint subtypes as `int` and its real subtype as `real` (see the header
comment for why `real` carries an `Int`). -/
inductive JVal where
  | null
  | bool (b : Bool)
  | int (n : Int)
  | real (r : Int)
  | str (s : String)
  | arr (xs : List JVal)
  | obj (kvs : List (String × JVal))

/-- Source `yyjson_mut_is_obj`. -/
def JVal.isObj : JVal → Bool
  | .obj _ => true
  | _ => false

/-- Source `yyjson_mut_is_arr`. -/
def JVal.isArr : JVal → Bool
  | .arr _ => true
  | _ => false

/-- Source `yyjson_mut_is_str`. -/
def JVal.isStr : JVal → Bool
  | .str _ => true
  | _ => false

/-- Source `yyjson_is_num` (uint, sint or real). -/
def JVal.isNum : JVal → Bool
  | .int _ => true
  | .real _ => true
  | _ => false

/-- Source `yyjson_mut_is_int` (uint or sint subtype). -/
def JVal.isInt : JVal → Bool
  | .int _ => true
  | _ => false

/-- Source `yyjson_get_bool`: the boolean payload, `false` for non-boolean values. -/
def JVal.getBool : JVal → Bool
  | .bool b => b
  | _ => false

/-- Source `yyjson_mut_get_sint` / `yyjson_get_sint`: the int64 payload for the
integer subtypes, and 0 for every other type (including reals). -/
def JVal.getSint : JVal → Int
  | .int n => n
  | _ => 0

/-- First-match lookup in an ordered key/value list (the scan inside
`yyjson_mut_obj_get`; duplicate keys can exist and the first wins). -/
def lookupFirst : List (String × JVal) → String → Option JVal
  | [], _ => none
  | (k, v) :: rest, key => if k = key then some v else lookupFirst rest key

/-- Replace the value of the first binding of `key` (in-place mutation of
the node returned by `yyjson_mut_obj_get`); no-op when absent. -/
def setFirstL : List (String × JVal) → String → JVal → List (String × JVal)
  | [], _, _ => []
  | (k, v) :: rest, key, w =>
      if k = key then (k, w) :: rest else (k, v) :: setFirstL rest key w

/-- Source `yyjson_mut_obj_get`: NULL (here `none`) when the value is not an
object, else the first matching binding. -/
def objGetFirst : JVal → String → Option JVal
  | .obj kvs, key => lookupFirst kvs key
  | _, _ => none

/-- In-place update of the first binding of `key`; identity on non-objects
(the C never reaches that case). -/
def objSetFirst : JVal → String → JVal → JVal
  | .obj kvs, key, w => .obj (setFirstL kvs key w)
  | v, _, _ => v

/-- Source `yyjson_mut_obj_add_val` and friends: append a binding at the end of
the object, allowing duplicate keys; identity on non-objects. -/
def objAppend : JVal → String → JVal → JVal
  | .obj kvs, key, w => .obj (kvs ++ [(key, w)])
  | v, _, _ => v

/-- Source `yyjson_mut_obj_remove_key`: remove every binding of `key`; identity
on non-objects. -/
def objRemoveAll : JVal → String → JVal
  | .obj kvs, key => .obj (kvs.filter (fun kv => kv.1 ≠ key))
  | v, _ => v

/-- Source `yyjson_mut_arr_remove_last`: NULL on an empty array, else the last
element together with the remaining array. -/
def arrRemoveLast : List JVal → Option (JVal × List JVal)
  | [] => none
  | [x] => some (x, [])
  | x :: y :: rest =>
      match arrRemoveLast (y :: rest) with
      | some (z, zs) => some (z, x :: zs)
      | none => none

/-- Source `jisp_mut_deep_copy` (`yyjson_mut_val_mut_copy`): structure-recursive
copy; on the pure tree this is the identity. -/
def jisp_mut_deep_copy (v : JVal) : JVal := v

mutual
/-- Source `yyjson_mut_equals` (`unsafe_yyjson_equals`): strict structural
equality; numbers compare by subtype, so an integer is never equal to a
real; objects compare by size plus first-match lookup of every left key. -/
def jsonEquals : JVal → JVal → Bool
  | .null, .null => true
  | .bool a, .bool b => a == b
  | .int a, .int b => a == b
  | .real a, .real b => a == b
  | .str a, .str b => a == b
  | .arr xs, .arr ys => jsonListEquals xs ys
  | .obj xs, .obj ys => xs.length == ys.length && jsonPairsAllIn xs ys
  | _, _ => false

/-- Element-wise equality of arrays, as in `unsafe_yyjson_equals`. -/
def jsonListEquals : List JVal → List JVal → Bool
  | [], [] => true
  | x :: xs, y :: ys => jsonEquals x y && jsonListEquals xs ys
  | _, _ => false

/-- Every left binding is found (first match) and equal on the right. -/
def jsonPairsAllIn : List (String × JVal) → List (String × JVal) → Bool
  | [], _ => true
  | (k, v) :: rest, ys =>
      (match lookupFirst ys k with
       | some w => jsonEquals v w
       | none => false) && jsonPairsAllIn rest ys
end

/-- The yyjson type tag (`unsafe_yyjson_get_type`): integers and reals
share the NUM tag. -/
def jtype : JVal → Nat
  | .null => 0
  | .bool _ => 1
  | .int _ => 2
  | .real _ => 2
  | .str _ => 3
  | .arr _ => 4
  | .obj _ => 5

mutual
/-- Source `json_subset_equals`: type tags must agree; objects require every
expected key to recursively subset-match in the actual value (extra keys
ignored); everything else compares by `yyjson_mut_equals`. -/
def json_subset_equals (subset superset : JVal) : Bool :=
  if jtype subset ≠ jtype superset then false
  else
    match subset with
    | .obj xs =>
        match superset with
        | .obj ys => subsetPairsAll xs ys
        | _ => false
    | _ => jsonEquals subset superset

/-- The object iteration of `json_subset_equals`. -/
def subsetPairsAll : List (String × JVal) → List (String × JVal) → Bool
  | [], _ => true
  | (k, v) :: rest, ys =>
      (match lookupFirst ys k with
       | some w => json_subset_equals v w
       | none => false) && subsetPairsAll rest ys
end

/-- Source `jisp_build_path_for_key_temp`: RFC 6901 encoding of a single key as
a path: a leading slash, with tilde and slash escaped. -/
def escapeKeyChars : List Char → List Char
  | [] => []
  | c :: rest =>
      if c = '~' then '~' :: '0' :: escapeKeyChars rest
      else if c = '/' then '~' :: '1' :: escapeKeyChars rest
      else c :: escapeKeyChars rest

/-- The string-level wrapper of `jisp_build_path_for_key_temp`. -/
def jisp_build_path_for_key_temp (key : String) : String :=
  ⟨'/' :: escapeKeyChars key.data⟩

/-- RFC 6901 token decoding: tilde-0 is a tilde, tilde-1 is a slash, a
tilde followed by anything else is a malformed escape (resolution fails,
as in yyjson). -/
def unescapeToken : List Char → Option (List Char)
  | [] => some []
  | c :: rest =>
      if c = '~' then
        match rest with
        | '0' :: rest2 => (unescapeToken rest2).map (fun t => '~' :: t)
        | '1' :: rest2 => (unescapeToken rest2).map (fun t => '/' :: t)
        | _ => none
      else (unescapeToken rest).map (fun t => c :: t)

/-- Split the character list of a pointer (after its leading slash) at
every slash, keeping empty tokens, as the yyjson pointer walker does. -/
def splitSegs : List Char → List (List Char)
  | [] => [[]]
  | c :: rest =>
      let r := splitSegs rest
      if c = '/' then [] :: r
      else
        match r with
        | s :: ss => (c :: s) :: ss
        | [] => [[c]]

/-- RFC 6901 array index token: nonempty decimal digits with no leading
zero (except the single digit 0). -/
def parseArrIdx (cs : List Char) : Option Nat :=
  if cs = [] then none
  else if cs.any (fun c => !c.isDigit) then none
  else if cs.length > 1 ∧ cs.head? = some '0' then none
  else some (cs.foldl (fun n c => n * 10 + (c.toNat - 48)) 0)

/-- Walk one decoded segment after another: key lookup in objects, index
lookup in arrays, failure on scalars, as in yyjson's pointer getter. -/
def walkSegs : JVal → List (List Char) → Option JVal
  | v, [] => some v
  | v, seg :: rest =>
      match unescapeToken seg with
      | none => none
      | some tok =>
          match v with
          | .obj _ =>
              match objGetFirst v ⟨tok⟩ with
              | some w => walkSegs w rest
              | none => none
          | .arr xs =>
              match parseArrIdx tok with
              | some i =>
                  match xs.get? i with
                  | some x => walkSegs x rest
                  | none => none
              | none => none
          | _ => none

/-- Source `yyjson_mut_ptr_get`: the empty pointer denotes the root; otherwise
the pointer must start with a slash and every segment must resolve. -/
def yyjson_mut_ptr_get (root : JVal) (path : String) : Option JVal :=
  if path = "" then some root
  else
    match path.data with
    | c :: rest => if c = '/' then walkSegs root (splitSegs rest) else none
    | [] => none


/-! ## Machine state, results, and document bookkeeping -/

/-- A JSON pointer handle (`jpm_ptr {doc, val, path}`).  Following the
spec's conservative translation note, the embedding keeps the resolved
path and re-resolves it on use; the C pins the raw node instead, which
agrees as long as the pinned target is not structurally replaced
(the invariant JPM users must uphold). -/
structure jpm_ptr where
  path : String

/-- Source `MAX_PTR_STACK`. -/
def MAX_PTR_STACK : Nat := 64

/-- The machine state: the mutable document (its root value) together
with the process-wide C-side pointer stack (head is the top). -/
structure JState where
  doc : JVal
  ptrs : List jpm_ptr

/-- The result of running a piece of the interpreter: a value, a
`jisp_fatal` abort carrying the message and the dumped document, fuel
exhaustion of the embedding, or unmodelled file I/O (`load`/`store`). -/
inductive Res (α : Type) where
  | ok (a : α)
  | fatal (msg : String) (dump : Option JVal)
  | outOfFuel
  | unmodeledIo (opname : String)

/-- Source `ensure_root_object`: replace a non-object root with a fresh empty
object. -/
def ensure_root_object (doc : JVal) : JVal :=
  if doc.isObj then doc else .obj []

/-- Source `ensure_ref_field`: create root ref as integer 0 when absent, else
coerce the existing field to a signed integer (non-integer payloads read
as 0 through `yyjson_mut_get_sint`). -/
def ensure_ref_field (doc : JVal) : JVal :=
  let doc := ensure_root_object doc
  match objGetFirst doc "ref" with
  | none => objAppend doc "ref" (.int 0)
  | some ref => objSetFirst doc "ref" (.int ref.getSint)

/-- Source `jpm_doc_retain`: clamp the ref count at 0 and increment it. -/
def jpm_doc_retain (doc : JVal) : JVal :=
  let doc := ensure_ref_field doc
  match objGetFirst doc "ref" with
  | some ref =>
      let cur := if ref.getSint < 0 then 0 else ref.getSint
      objSetFirst doc "ref" (.int (cur + 1))
  | none => doc

/-- Source `jpm_doc_release`: decrement a positive ref count (the free of the
document at zero is the end of its life and is not otherwise
observable in the embedding). -/
def jpm_doc_release (doc : JVal) : JVal :=
  let doc := ensure_ref_field doc
  match objGetFirst doc "ref" with
  | some ref =>
      let cur := ref.getSint
      objSetFirst doc "ref" (.int (if cur > 0 then cur - 1 else cur))
  | none => doc

/-- Source `is_reversible_enabled`: the boolean payload of root is_reversible
(false when absent, non-boolean, or the root is not an object). -/
def is_reversible_enabled (doc : JVal) : Bool :=
  match objGetFirst doc "is_reversible" with
  | some flag => flag.getBool
  | none => false

/-- Source `ensure_residual_array`: the current residual list and the possibly
updated document; `none` when a non-array residual field exists (logging
is skipped, user data is not touched). -/
def ensure_residual_array (doc : JVal) : Option (List JVal) × JVal :=
  let doc := ensure_root_object doc
  match objGetFirst doc "residual" with
  | some (.arr r) => (some r, doc)
  | some _ => (none, doc)
  | none => (some [], objAppend doc "residual" (.arr []))

/-- Build a patch object `{op, path, value?}` in field order. -/
def mkPatch (op path : String) (val : Option JVal) : JVal :=
  match val with
  | some v => .obj [("op", .str op), ("path", .str path), ("value", jisp_mut_deep_copy v)]
  | none => .obj [("op", .str op), ("path", .str path)]

/-- Source `record_patch_with_val`: append a single patch entry (with a deep
copy of `val` when given) to the residual log, when reversibility is
enabled and the residual field is usable. -/
def record_patch_with_val (doc : JVal) (op path : String) (val : Option JVal) : JVal :=
  if is_reversible_enabled doc then
    match ensure_residual_array doc with
    | (some r, doc2) => objSetFirst doc2 "residual" (.arr (r ++ [mkPatch op path val]))
    | (none, doc2) => doc2
  else doc

/-- Source `record_patch_with_real`: as above with a real-typed value payload. -/
def record_patch_with_real (doc : JVal) (op path : String) (num : Int) : JVal :=
  if is_reversible_enabled doc then
    match ensure_residual_array doc with
    | (some r, doc2) =>
        objSetFirst doc2 "residual"
          (.arr (r ++ [.obj [("op", .str op), ("path", .str path), ("value", .real num)]]))
    | (none, doc2) => doc2
  else doc

/-- Source `record_patch_add_val`. -/
def record_patch_add_val (doc : JVal) (path : String) (val : JVal) : JVal :=
  record_patch_with_val doc "add" path (some val)

/-- Source `record_patch_replace_val`. -/
def record_patch_replace_val (doc : JVal) (path : String) (val : JVal) : JVal :=
  record_patch_with_val doc "replace" path (some val)

/-- Source `record_patch_remove`: a remove patch without a captured value. -/
def record_patch_remove (doc : JVal) (path : String) : JVal :=
  if is_reversible_enabled doc then
    match ensure_residual_array doc with
    | (some r, doc2) => objSetFirst doc2 "residual" (.arr (r ++ [mkPatch "remove" path none]))
    | (none, doc2) => doc2
  else doc

/-- Source `residual_group_begin`: a fresh patch group when reversibility is
enabled, `none` (NULL) otherwise. -/
def residual_group_begin (doc : JVal) : Option (List JVal) :=
  if is_reversible_enabled doc then some [] else none

/-- Source `residual_group_add_patch_with_val`: append to the group, or fall
back to direct single-entry logging when there is no group. -/
def residual_group_add_patch_with_val (doc : JVal) (group : Option (List JVal))
    (op path : String) (val : Option JVal) : JVal × Option (List JVal) :=
  match group with
  | some g => (doc, some (g ++ [mkPatch op path val]))
  | none => (record_patch_with_val doc op path val, none)

/-- Source `residual_group_add_patch_with_real`. -/
def residual_group_add_patch_with_real (doc : JVal) (group : Option (List JVal))
    (op path : String) (num : Int) : JVal × Option (List JVal) :=
  match group with
  | some g => (doc, some (g ++ [.obj [("op", .str op), ("path", .str path), ("value", .real num)]]))
  | none => (record_patch_with_real doc op path num, none)

/-- Source `residual_group_commit`: append the whole group as one residual
entry, when reversibility is enabled. -/
def residual_group_commit (doc : JVal) (group : List JVal) : JVal :=
  if is_reversible_enabled doc then
    match ensure_residual_array doc with
    | (some r, doc2) => objSetFirst doc2 "residual" (.arr (r ++ [.arr group]))
    | (none, doc2) => doc2
  else doc

/-- Commit a possibly-absent group (`if (group) residual_group_commit`). -/
def residual_group_commit_opt (doc : JVal) (group : Option (List JVal)) : JVal :=
  match group with
  | some g => residual_group_commit doc g
  | none => doc

/-- Source `jisp_stack_push_copy_and_log`: append a deep copy of `elem` to the
first root stack binding and record an add patch at the stack-append
path.  If the binding is missing the C appends to the previously pinned
array, which is unobservable; the embedding leaves the document
unchanged then. -/
def jisp_stack_push_copy_and_log (doc : JVal) (elem : JVal) : JVal :=
  match objGetFirst doc "stack" with
  | some (.arr s) =>
      let doc2 := objSetFirst doc "stack" (.arr (s ++ [jisp_mut_deep_copy elem]))
      record_patch_add_val doc2 "/stack/-" elem
  | _ => doc

/-- Source `jisp_stack_log_remove_last`: record the removal of the current top
of stack, capturing its value; no-op when the stack is empty or missing. -/
def jisp_stack_log_remove_last (doc : JVal) : JVal :=
  match objGetFirst doc "stack" with
  | some (.arr s) =>
      match arrRemoveLast s with
      | some (last, _) =>
          record_patch_with_val doc "remove" ("/stack/" ++ toString (s.length - 1)) (some last)
      | none => doc
  | _ => doc

/-- Source `ensure_call_stack` composed with `push_call_stack`: append the frame
path to the call stack, creating the array when missing (a non-array
binding is shadowed by a fresh appended one, as `yyjson_mut_obj_add_val`
allows duplicates). -/
def push_call_stack (doc : JVal) (fpath : String) : JVal :=
  let doc := ensure_root_object doc
  match objGetFirst doc "call_stack" with
  | some (.arr cs) => objSetFirst doc "call_stack" (.arr (cs ++ [.str fpath]))
  | some _ => objAppend doc "call_stack" (.arr [.str fpath])
  | none => objAppend doc "call_stack" (.arr [.str fpath])

/-- Source `pop_call_stack`: best-effort removal of the last frame. -/
def pop_call_stack (doc : JVal) : JVal :=
  let doc := ensure_root_object doc
  match objGetFirst doc "call_stack" with
  | some (.arr cs) =>
      match arrRemoveLast cs with
      | some (_, rest) => objSetFirst doc "call_stack" (.arr rest)
      | none => objSetFirst doc "call_stack" (.arr cs)
  | some _ => objAppend doc "call_stack" (.arr [])
  | none => objAppend doc "call_stack" (.arr [])

/-- Source `set_exit_interrupt`: append a true interrupt flag binding. -/
def set_exit_interrupt (doc : JVal) : JVal :=
  objAppend (ensure_root_object doc) "_interrupt_exit" (.bool true)

/-- Source `check_and_clear_exit_interrupt`: whether the flag is set, together
with the (cleared, when it was set) document. -/
def check_and_clear_exit_interrupt (doc : JVal) : Bool × JVal :=
  let doc := ensure_root_object doc
  match objGetFirst doc "_interrupt_exit" with
  | some flag =>
      if flag.getBool then (true, objRemoveAll doc "_interrupt_exit")
      else (false, doc)
  | none => (false, doc)

/-- Source `get_stack_fallible`: the first root stack binding, fatal when it is
missing or not an array. -/
def get_stack_fallible (doc : JVal) (ctx : String) : Res (List JVal) :=
  match objGetFirst doc "stack" with
  | some (.arr s) => .ok s
  | _ => .fatal (ctx ++ ": missing or non-array stack") (some doc)

/-! ## Pointer-path update, the JPM stack, and scalar assignment -/

/-- In-place update of the node a pointer resolves to: the same walk as
`yyjson_mut_ptr_get`, rebuilding the spine (the C mutates the resolved
node directly). -/
def walkSetSegs : JVal → List (List Char) → JVal → Option JVal
  | _, [], w => some w
  | v, seg :: rest, w =>
      match unescapeToken seg with
      | none => none
      | some tok =>
          match v with
          | .obj kvs =>
              match lookupFirst kvs ⟨tok⟩ with
              | some x => (walkSetSegs x rest w).map (fun x2 => .obj (setFirstL kvs ⟨tok⟩ x2))
              | none => none
          | .arr xs =>
              match parseArrIdx tok with
              | some i =>
                  match xs.get? i with
                  | some x => (walkSetSegs x rest w).map (fun x2 => .arr (xs.set i x2))
                  | none => none
              | none => none
          | _ => none

/-- Replace the value at a (non-root) resolved pointer path. -/
def ptr_set_at (root : JVal) (path : String) (w : JVal) : Option JVal :=
  if path = "" then some w
  else
    match path.data with
    | c :: rest => if c = '/' then walkSetSegs root (splitSegs rest) w else none
    | [] => none

/-- Scalar test used by `assign_scalar_to_target`: containers are
rejected (fatal), every other type is overwritten in place. -/
def JVal.isScalar : JVal → Bool
  | .arr _ => false
  | .obj _ => false
  | _ => true

/-- Source `jpm_return`: resolve an RFC 6901 path to a handle, retaining the
document on success; the root path is special-cased.  `none` is the
JPM_ERR_NOT_FOUND outcome. -/
def jpm_return (doc : JVal) (path : String) : Option (JVal × jpm_ptr) :=
  if path = "/" then some (jpm_doc_retain doc, ⟨path⟩)
  else
    match yyjson_mut_ptr_get doc path with
    | some _ => some (jpm_doc_retain doc, ⟨path⟩)
    | none => none

/-- Source `ptr_stack_push`: fatal overflow at `MAX_PTR_STACK` live handles
(the C passes a NULL document to `jisp_fatal`). -/
def ptr_stack_push (ptrs : List jpm_ptr) (p : jpm_ptr) : Res (List jpm_ptr) :=
  if MAX_PTR_STACK ≤ ptrs.length then .fatal "Pointer stack overflow (max 64)" none
  else .ok (p :: ptrs)

/-- Source `ptr_stack_pop`: fatal underflow on an empty stack. -/
def ptr_stack_pop (ptrs : List jpm_ptr) : Res (jpm_ptr × List jpm_ptr) :=
  match ptrs with
  | [] => .fatal "Pointer stack underflow" none
  | p :: rest => .ok (p, rest)

/-- Source `ptr_stack_peek`: fatal underflow on an empty stack. -/
def ptr_stack_peek (ptrs : List jpm_ptr) : Res jpm_ptr :=
  match ptrs with
  | [] => .fatal "Pointer stack underflow (peek)" none
  | p :: _ => .ok p

/-! ## The opcode library (the operations that do not re-enter the walker) -/

/-- Propagate a non-ok result, continue on ok (explicit sequencing of the
fatal-exits-the-process control flow). -/
def Res.bind {α β : Type} : Res α → (α → Res β) → Res β
  | .ok a, f => f a
  | .fatal m d, _ => .fatal m d
  | .outOfFuel, _ => .outOfFuel
  | .unmodeledIo s, _ => .unmodeledIo s

/-- The `REQUIRE_STACK` macro: fetch the stack with `get_stack_fallible`
(the context string is the C function name, `__func__`) and require at
least `n` values. -/
def REQUIRE_STACK (doc : JVal) (ctx : String) (n : Nat) : Res (List JVal) :=
  match objGetFirst doc "stack" with
  | some (.arr s) =>
      if s.length < n then
        .fatal (ctx ++ ": need at least " ++ toString n ++ " values on stack") (some doc)
      else .ok s
  | _ => .fatal (ctx ++ ": missing or non-array stack") (some doc)

/-- Source `pop_and_store`: pop a string key, pop a value, and append the
binding to the root object (duplicate keys allowed by
`yyjson_mut_obj_add_val`), logging an add or replace patch depending on
whether the key was already present. -/
def pop_and_store (st : JState) : Res JState :=
  Res.bind (REQUIRE_STACK st.doc "pop_and_store" 2) fun s =>
    let doc1 := jisp_stack_log_remove_last st.doc
    match arrRemoveLast s with
    | some (keyv, s1) =>
        let doc2 := objSetFirst doc1 "stack" (.arr s1)
        match keyv with
        | .str key =>
            let doc3 := jisp_stack_log_remove_last doc2
            match arrRemoveLast s1 with
            | some (value, s2) =>
                let doc4 := objSetFirst doc3 "stack" (.arr s2)
                let existed := (objGetFirst doc4 key).isSome
                let pathb := jisp_build_path_for_key_temp key
                let doc5 := objAppend doc4 key value
                let doc6 :=
                  if existed then record_patch_replace_val doc5 pathb value
                  else record_patch_add_val doc5 pathb value
                .ok { st with doc := doc6 }
            | none => .fatal "pop_and_store: failed to pop value or duplicate key" (some doc3)
        | _ => .fatal "pop_and_store: key must be a string" (some doc2)
    | none => .fatal "pop_and_store: key must be a string" (some doc1)

/-- Source `duplicate_top`: log-and-pop the top, push the original back, then
push a deep copy; both pushes log an add patch whose payload is the
original value. -/
def duplicate_top (st : JState) : Res JState :=
  Res.bind (REQUIRE_STACK st.doc "duplicate_top" 1) fun s =>
    let doc1 := jisp_stack_log_remove_last st.doc
    match arrRemoveLast s with
    | some (last, s1) =>
        let doc2 := objSetFirst doc1 "stack" (.arr (s1 ++ [last]))
        let doc3 := record_patch_add_val doc2 "/stack/-" last
        let doc4 := objSetFirst doc3 "stack" (.arr (s1 ++ [last, jisp_mut_deep_copy last]))
        .ok { st with doc := record_patch_add_val doc4 "/stack/-" last }
    | none => .fatal "duplicate_top: failed to pop top of stack" (some doc1)

/-- Binade search used by the double-rounding model: the least `e` at
or above the starting one with `a < 2 ^ (53 + e)`.  Structural fuel
keeps the definition kernel-reducible; 1100 steps cover every finite
IEEE-754 binary64 value. -/
def dblExpAux : Nat → Nat → Nat → Nat
  | 0, _, e => e
  | fu + 1, a, e => if a < 2 ^ (53 + e) then e else dblExpAux fu a (e + 1)

/-- IEEE-754 binary64 round-to-nearest-ties-to-even of a nonnegative
integer to 53 significant bits: the exact value of the C cast
`(double)a`.  Below 2^53 the cast is exact; above, the value is rounded
to the nearest multiple of the binade unit `2 ^ e`, ties to the even
multiple. -/
def dblRoundPos (a : Nat) : Nat :=
  if a < 2 ^ 53 then a
  else
    let e := dblExpAux 1100 a 1
    let p := 2 ^ e
    let q := a / p
    let r := a % p
    if r < p / 2 then q * p
    else if p / 2 < r then (q + 1) * p
    else if q % 2 = 0 then q * p else (q + 1) * p

/-- The exact value of the C cast `(double)n` for an integer `n`
(IEEE-754 rounding is sign-symmetric). -/
def doubleOfInt (n : Int) : Int :=
  if 0 ≤ n then (dblRoundPos n.toNat : Int) else -(dblRoundPos (-n).toNat : Int)

/-- The exact value of an IEEE-754 double addition of two integer-valued
doubles: the exact integer sum, rounded back to 53 significant bits. -/
def doubleAdd (x y : Int) : Int :=
  doubleOfInt (x + y)

/-- Source `add_two_top`: pop both operands (recording grouped remove patches
with their indices), require both numeric, and push the sum as an
integer (`yyjson_mut_arr_add_int`); the grouped add patch carries the
sum as a real (`residual_group_add_patch_with_real`).  The C casts the
int64 payloads through double before summing (`doubleOfInt`) and adds
in double precision (`doubleAdd`), so sums round once the operands
reach 2^53; reals read as 0 through `yyjson_mut_get_sint`.  The
`(int64_t)` cast on the push is the identity on integer-valued doubles
in the int64 range, the only ones reachable from int64 payloads here. -/
def add_two_top (st : JState) : Res JState :=
  Res.bind (REQUIRE_STACK st.doc "add_two_top" 2) fun s =>
    let group := residual_group_begin st.doc
    match arrRemoveLast s with
    | some (val1, s1) =>
        let path0 := "/stack/" ++ toString (s.length - 1)
        let doc1 := objSetFirst st.doc "stack" (.arr s1)
        let dg1 := residual_group_add_patch_with_val doc1 group "remove" path0 (some val1)
        match arrRemoveLast s1 with
        | some (val2, s2) =>
            let path1 := "/stack/" ++ toString (s1.length - 1)
            let doc2 := objSetFirst dg1.1 "stack" (.arr s2)
            let dg2 := residual_group_add_patch_with_val doc2 dg1.2 "remove" path1 (some val2)
            if val1.isNum && val2.isNum then
              let sum := doubleAdd (doubleOfInt val1.getSint) (doubleOfInt val2.getSint)
              let doc3 := objSetFirst dg2.1 "stack" (.arr (s2 ++ [.int sum]))
              let dg3 := residual_group_add_patch_with_real doc3 dg2.2 "add" "/stack/-" sum
              .ok { st with doc := residual_group_commit_opt dg3.1 dg3.2 }
            else .fatal "add_two_top: operands must be numeric" (some dg2.1)
        | none => .fatal "add_two_top: failed to pop operands" (some dg1.1)
    | none => .fatal "add_two_top: failed to pop operands" (some st.doc)

/-- Source `json_get`: pop a path string (grouped remove patch), resolve it on
the root (the root path special-cased), push a deep copy of the target
and commit the group. -/
def json_get (st : JState) : Res JState :=
  Res.bind (REQUIRE_STACK st.doc "json_get" 1) fun s =>
    let group := residual_group_begin st.doc
    match arrRemoveLast s with
    | some (path_val, s1) =>
        let pathIdx := "/stack/" ++ toString (s.length - 1)
        let doc1 := objSetFirst st.doc "stack" (.arr s1)
        let dg1 := residual_group_add_patch_with_val doc1 group "remove" pathIdx (some path_val)
        match path_val with
        | .str path =>
            match (if path = "/" then some dg1.1 else yyjson_mut_ptr_get dg1.1 path) with
            | some target =>
                let copy := jisp_mut_deep_copy target
                let doc2 := objSetFirst dg1.1 "stack" (.arr (s1 ++ [copy]))
                let dg2 := residual_group_add_patch_with_val doc2 dg1.2 "add" "/stack/-" (some copy)
                .ok { st with doc := residual_group_commit_opt dg2.1 dg2.2 }
            | none => .fatal ("get: path not found: " ++ path) (some dg1.1)
        | _ => .fatal "get: path must be a string" (some dg1.1)
    | none => .fatal "get: path must be a string" (some st.doc)

/-- Source `json_set`: pop a path string and a value, resolve the target and
overwrite it in place (scalars only), recording a grouped replace patch. -/
def json_set (st : JState) : Res JState :=
  Res.bind (REQUIRE_STACK st.doc "json_set" 2) fun s =>
    let group := residual_group_begin st.doc
    match arrRemoveLast s with
    | some (path_val, s1) =>
        let pathIdx := "/stack/" ++ toString (s.length - 1)
        let doc1 := objSetFirst st.doc "stack" (.arr s1)
        let dg1 := residual_group_add_patch_with_val doc1 group "remove" pathIdx (some path_val)
        match path_val with
        | .str path =>
            match arrRemoveLast s1 with
            | some (value, s2) =>
                let valIdx := "/stack/" ++ toString (s1.length - 1)
                let doc2 := objSetFirst dg1.1 "stack" (.arr s2)
                let dg2 := residual_group_add_patch_with_val doc2 dg1.2 "remove" valIdx (some value)
                match (if path = "/" then some dg2.1 else yyjson_mut_ptr_get dg2.1 path) with
                | some _ =>
                    if value.isScalar then
                      let doc3 :=
                        if path = "/" then value
                        else (ptr_set_at dg2.1 path value).getD dg2.1
                      let dg3 := residual_group_add_patch_with_val doc3 dg2.2 "replace" path (some value)
                      .ok { st with doc := residual_group_commit_opt dg3.1 dg3.2 }
                    else
                      .fatal "set: value must be a scalar (null, bool, number, or string)" (some dg2.1)
                | none => .fatal ("set: path not found: " ++ path) (some dg2.1)
            | none => .fatal ("set: path not found: " ++ path) (some dg1.1)
        | _ => .fatal "set: path must be a string" (some dg1.1)
    | none => .fatal "set: path must be a string" (some st.doc)

/-- Source `json_append`: pop a path string and a value, resolve the target
array and append a deep copy, recording a grouped add patch at the
array-append path. -/
def json_append (st : JState) : Res JState :=
  Res.bind (REQUIRE_STACK st.doc "json_append" 2) fun s =>
    let group := residual_group_begin st.doc
    match arrRemoveLast s with
    | some (path_val, s1) =>
        let pathIdx := "/stack/" ++ toString (s.length - 1)
        let doc1 := objSetFirst st.doc "stack" (.arr s1)
        let dg1 := residual_group_add_patch_with_val doc1 group "remove" pathIdx (some path_val)
        match path_val with
        | .str path =>
            match arrRemoveLast s1 with
            | some (value, s2) =>
                let valIdx := "/stack/" ++ toString (s1.length - 1)
                let doc2 := objSetFirst dg1.1 "stack" (.arr s2)
                let dg2 := residual_group_add_patch_with_val doc2 dg1.2 "remove" valIdx (some value)
                match (if path = "/" then some dg2.1 else yyjson_mut_ptr_get dg2.1 path) with
                | some (.arr xs) =>
                    let doc3 :=
                      if path = "/" then .arr (xs ++ [jisp_mut_deep_copy value])
                      else (ptr_set_at dg2.1 path (.arr (xs ++ [jisp_mut_deep_copy value]))).getD dg2.1
                    let apath := if path = "/" then "/-" else path ++ "/-"
                    let dg3 := residual_group_add_patch_with_val doc3 dg2.2 "add" apath (some value)
                    .ok { st with doc := residual_group_commit_opt dg3.1 dg3.2 }
                | _ => .fatal "append: path must resolve to an array" (some dg2.1)
            | none => .fatal "append: path must resolve to an array" (some dg1.1)
        | _ => .fatal "append: path must be a string" (some dg1.1)
    | none => .fatal "append: path must be a string" (some st.doc)

/-- Source `ptr_new`: log-and-pop a path string, resolve it to a handle
(retaining the document), and push the handle onto the C-side pointer
stack (fatal overflow at capacity). -/
def ptr_new (st : JState) : Res JState :=
  Res.bind (REQUIRE_STACK st.doc "ptr_new" 1) fun s =>
    let doc1 := jisp_stack_log_remove_last st.doc
    match arrRemoveLast s with
    | some (path_val, s1) =>
        let doc2 := objSetFirst doc1 "stack" (.arr s1)
        match path_val with
        | .str path =>
            match jpm_return doc2 path with
            | some (doc3, p) =>
                Res.bind (ptr_stack_push st.ptrs p) fun ptrs2 =>
                  .ok { doc := doc3, ptrs := ptrs2 }
            | none => .fatal ("ptr_new: resolution failed for path " ++ path) (some doc2)
        | _ => .fatal "ptr_new: path must be a string" (some doc2)
    | none => .fatal "ptr_new: path must be a string" (some doc1)

/-- Source `ptr_release_op`: pop the top handle and release it (decrementing
the document ref count it retained). -/
def ptr_release_op (st : JState) : Res JState :=
  Res.bind (ptr_stack_pop st.ptrs) fun pr =>
    .ok { doc := jpm_doc_release st.doc, ptrs := pr.2 }

/-- Source `ptr_get`: peek the top handle and push a deep copy of its target
(resolved by path in the embedding, see `jpm_ptr`), logging an add
patch. -/
def ptr_get (st : JState) : Res JState :=
  Res.bind (get_stack_fallible st.doc "ptr_get") fun s =>
    Res.bind (ptr_stack_peek st.ptrs) fun p =>
      match (if p.path = "/" then some st.doc else yyjson_mut_ptr_get st.doc p.path) with
      | some target =>
          let copy := jisp_mut_deep_copy target
          let doc2 := objSetFirst st.doc "stack" (.arr (s ++ [copy]))
          .ok { st with doc := record_patch_add_val doc2 "/stack/-" copy }
      | none => .fatal "ptr_get: pointer has null value (stale?)" (some st.doc)

/-- Source `ptr_set`: peek the top handle, log-and-pop a value, and overwrite
the handle target in place (scalars only; no residual patch is recorded
for the target, as the C notes). -/
def ptr_set (st : JState) : Res JState :=
  Res.bind (REQUIRE_STACK st.doc "ptr_set" 1) fun s =>
    Res.bind (ptr_stack_peek st.ptrs) fun p =>
      let doc1 := jisp_stack_log_remove_last st.doc
      match arrRemoveLast s with
      | some (val, s1) =>
          let doc2 := objSetFirst doc1 "stack" (.arr s1)
          if val.isScalar then
            match (if p.path = "/" then some val else ptr_set_at doc2 p.path val) with
            | some doc3 => .ok { st with doc := doc3 }
            | none => .fatal "ptr_set: pointer has null value (stale?)" (some doc2)
          else
            .fatal "ptr_set: value must be a scalar (null, bool, number, or string)" (some doc2)
      | none => .fatal "ptr_set: value must be a scalar (null, bool, number, or string)" (some doc1)

/-- Source `print_json`: output only; the document is untouched. -/
def print_json (st : JState) : Res JState := .ok st

/-- Source `op_print_error`: log-and-pop the error object and pretty-print it
(output only). -/
def op_print_error (st : JState) : Res JState :=
  Res.bind (REQUIRE_STACK st.doc "op_print_error" 1) fun s =>
    let doc1 := jisp_stack_log_remove_last st.doc
    match arrRemoveLast s with
    | some (_, s1) => .ok { st with doc := objSetFirst doc1 "stack" (.arr s1) }
    | none => .ok { st with doc := doc1 }

/-- Source `op_exit`: set the transient exit-interrupt flag; the walker consumes
it at the next frame-iteration boundary. -/
def op_exit (st : JState) : Res JState :=
  .ok { st with doc := set_exit_interrupt st.doc }

/-- Source `jisp_create_error`: the structured error skeleton (details are
appended by the caller). -/
def jisp_create_error (kind msg : String) : JVal :=
  .obj [("error", .bool true), ("kind", .str kind), ("message", .str msg)]

/-! ## Undo -/

/-- Source `undo_op_add`: invert an add patch; only the stack-append path is
supported (best-effort pop, no-op on an empty or missing stack). -/
def undo_op_add (doc : JVal) (path : String) : JVal :=
  if path = "/stack/-" then
    match objGetFirst doc "stack" with
    | some (.arr s) =>
        match arrRemoveLast s with
        | some (_, rest) => objSetFirst doc "stack" (.arr rest)
        | none => doc
    | _ => doc
  else doc

/-- Source `undo_op_remove`: invert a remove patch with a captured value; only
stack paths (prefix comparison, `strncmp` over the first seven
characters) are supported: the value is re-appended. -/
def undo_op_remove (doc : JVal) (path : String) (valv : Option JVal) : JVal :=
  match valv with
  | none => doc
  | some v =>
      if "/stack/".data.isPrefixOf path.data then
        match objGetFirst doc "stack" with
        | some (.arr s) => objSetFirst doc "stack" (.arr (s ++ [jisp_mut_deep_copy v]))
        | _ => doc
      else doc

/-- Source `undo_one_patch`: dispatch one patch object on its op field; replace
is a documented no-op. -/
def undo_one_patch (doc : JVal) (patch : JVal) : Res JVal :=
  match patch with
  | .obj _ =>
      match objGetFirst patch "op", objGetFirst patch "path" with
      | some (.str op), some (.str path) =>
          if op = "add" then .ok (undo_op_add doc path)
          else if op = "remove" then .ok (undo_op_remove doc path (objGetFirst patch "value"))
          else .ok doc
      | _, _ => .fatal "undo: residual entry must have string op and path" (some doc)
  | _ => .fatal "undo: residual entry is not an object" (some doc)

/-- The grouped-undo loop: the C removes the last patch of the group and
undoes it until the group is empty, i.e. it undoes the group in reverse
order; the embedding receives the already-reversed list. -/
def undo_group_rev (doc : JVal) : List JVal → Res JVal
  | [] => .ok doc
  | p :: rest =>
      match p with
      | .obj _ =>
          Res.bind (undo_one_patch doc p) fun doc2 => undo_group_rev doc2 rest
      | _ => .fatal "undo: grouped residual contains non-object entry" (some doc)

/-- Source `perform_undo`: pop the last residual entry and invert it — a single
patch directly, a group patch-by-patch in reverse order. -/
def perform_undo (doc : JVal) : Res JVal :=
  match objGetFirst doc "residual" with
  | some (.arr res) =>
      match arrRemoveLast res with
      | some (entry, rest) =>
          let doc2 := objSetFirst doc "residual" (.arr rest)
          match entry with
          | .obj _ => undo_one_patch doc2 entry
          | .arr g => undo_group_rev doc2 g.reverse
          | _ => .fatal "undo: top residual entry must be an object or array of objects" (some doc2)
      | none => .fatal "undo: residual is missing or empty" (some doc)
  | _ => .fatal "undo: residual is missing or empty" (some doc)

/-- Source `undo_jisp_op`: log-and-pop a program object, run `perform_undo` on
an isolated copy, and push the resulting document back (logging the
push). -/
def undo_jisp_op (st : JState) : Res JState :=
  Res.bind (REQUIRE_STACK st.doc "undo_jisp_op" 1) fun s =>
    let doc1 := jisp_stack_log_remove_last st.doc
    match arrRemoveLast s with
    | some (program, s1) =>
        let doc2 := objSetFirst doc1 "stack" (.arr s1)
        match program with
        | .obj _ =>
            Res.bind (perform_undo (jisp_mut_deep_copy program)) fun result =>
              let result_copy := jisp_mut_deep_copy result
              let doc3 := objSetFirst doc2 "stack" (.arr (s1 ++ [result_copy]))
              .ok { st with doc := record_patch_add_val doc3 "/stack/-" result_copy }
        | _ => .fatal "undo: top of stack must be a program object" (some doc2)
    | none => .fatal "undo: top of stack must be a program object" (some doc1)

/-! ## Opcode registry and the entrypoint walker -/

/-- Source `jisp_op_registry_init`: the name-to-numeric-id table (a JSON object
in the C, an association list here; id 4 is unassigned in the enum). -/
def jisp_op_registry : List (String × Nat) :=
  [("pop_and_store", 1), ("duplicate_top", 2), ("add_two_top", 3),
   ("print_json", 5), ("undo", 6), ("map_over", 7), ("get", 8), ("set", 9),
   ("append", 10), ("ptr_new", 11), ("ptr_release", 12), ("ptr_get", 13),
   ("ptr_set", 14), ("enter", 15), ("exit", 16), ("test", 17),
   ("print_error", 18), ("load", 19), ("store", 20), ("step", 21)]

/-- Source `jisp_op_registry_get`: first-match lookup of an opcode id. -/
def jisp_op_registry_get (name : String) : Option Nat :=
  (jisp_op_registry.find? (fun p => p.1 == name)).map (fun p => p.2)

mutual
/-- Source `process_ep_array`: require an array, push the frame path onto the
call stack, require a usable operand stack, run the frame loop, and pop
the call stack on every non-fatal exit. -/
def process_ep_array : Nat → JState → JVal → String → Res JState
  | 0, _, _, _ => .outOfFuel
  | fu+1, st, ep, fpath =>
      match ep with
      | .arr elems =>
          let st1 : JState := { st with doc := push_call_stack st.doc fpath }
          match objGetFirst st1.doc "stack" with
          | some (.arr _) =>
              Res.bind (frame_loop fu st1 elems fpath 0) fun st2 =>
                .ok { st2 with doc := pop_call_stack st2.doc }
          | _ => .fatal "process_entrypoint: missing or non-array stack" (some st1.doc)
      | _ => .fatal "entrypoint must be an array" (some st.doc)
termination_by structural fu _ _ _ => fu

/-- The iteration inside `process_ep_array`: before each instruction the
exit interrupt is checked and, when set, consumed — the frame breaks
immediately.  A frame with no instruction left ends without checking. -/
def frame_loop : Nat → JState → List JVal → String → Nat → Res JState
  | 0, _, _, _, _ => .outOfFuel
  | _+1, st, [], _, _ => .ok st
  | fu+1, st, e :: rest, fpath, idx =>
      match check_and_clear_exit_interrupt st.doc with
      | (true, doc2) => .ok { st with doc := doc2 }
      | (false, doc2) =>
          Res.bind (process_one_instruction fu { st with doc := doc2 } e fpath idx) fun st2 =>
            frame_loop fu st2 rest fpath (idx + 1)
termination_by structural fu _ _ _ _ => fu

/-- Source `process_one_instruction`: objects are directives or literal objects;
strings, numbers and arrays are pushed with logging; null and booleans
are fatal. -/
def process_one_instruction : Nat → JState → JVal → String → Nat → Res JState
  | 0, _, _, _, _ => .outOfFuel
  | _+1, st, .str s, _, _ => .ok { st with doc := jisp_stack_push_copy_and_log st.doc (.str s) }
  | _+1, st, .int n, _, _ => .ok { st with doc := jisp_stack_push_copy_and_log st.doc (.int n) }
  | _+1, st, .real r, _, _ => .ok { st with doc := jisp_stack_push_copy_and_log st.doc (.real r) }
  | _+1, st, .arr xs, _, _ => .ok { st with doc := jisp_stack_push_copy_and_log st.doc (.arr xs) }
  | fu+1, st, .obj kvs, fpath, idx => process_ep_object fu st (.obj kvs) fpath idx
  | _+1, st, _, _, _ =>
      .fatal "entrypoint element is not a string, number, array, or object" (some st.doc)
termination_by structural fu _ _ _ _ => fu

/-- Source `process_ep_object`: no dot key means a literal object (plain append
to the stack, no logging); a dot array is a nested frame; a dot string
is first matched against a root-level array (macro), then against the
opcode registry, and falls back to a literal push; any other dot type is
fatal. -/
def process_ep_object : Nat → JState → JVal → String → Nat → Res JState
  | 0, _, _, _, _ => .outOfFuel
  | fu+1, st, elem, fpath, idx =>
      match objGetFirst elem "." with
      | none =>
          match objGetFirst st.doc "stack" with
          | some (.arr s) =>
              .ok { st with doc := objSetFirst st.doc "stack" (.arr (s ++ [jisp_mut_deep_copy elem])) }
          | _ => .ok st
      | some (.arr nested) =>
          process_ep_array fu st (.arr nested) (fpath ++ "/" ++ toString idx ++ "/.")
      | some (.str name) =>
          match objGetFirst st.doc name with
          | some (.arr target) => process_ep_array fu st (.arr target) ("/" ++ name)
          | _ =>
              match jisp_op_registry_get name with
              | some id => run_op fu id st
              | none =>
                  match objGetFirst st.doc "stack" with
                  | some (.arr s) =>
                      .ok { st with doc := objSetFirst st.doc "stack" (.arr (s ++ [jisp_mut_deep_copy elem])) }
                  | _ => .ok st
      | some _ => .fatal "entrypoint object . field must be an array or string" (some st.doc)
termination_by structural fu _ _ _ _ => fu

/-- Source `jisp_op_from_id` plus the indirect call: dispatch a registry id to
its opcode (the default is unreachable for ids the registry produces). -/
def run_op : Nat → Nat → JState → Res JState
  | 0, _, _ => .outOfFuel
  | fu+1, id, st =>
      match id with
      | 1 => pop_and_store st
      | 2 => duplicate_top st
      | 3 => add_two_top st
      | 5 => print_json st
      | 6 => undo_jisp_op st
      | 7 => map_over fu st
      | 8 => json_get st
      | 9 => json_set st
      | 10 => json_append st
      | 11 => ptr_new st
      | 12 => ptr_release_op st
      | 13 => ptr_get st
      | 14 => ptr_set st
      | 15 => enter fu st
      | 16 => op_exit st
      | 17 => op_test fu st
      | 18 => op_print_error st
      | 19 => .unmodeledIo "load"
      | 20 => .unmodeledIo "store"
      | 21 => step_jisp_op fu st
      | _ => .fatal "unreachable: unknown opcode id" none
termination_by structural fu _ _ => fu

/-- Source `enter`: pop the target; a string resolves to an array to walk, an
array is walked anonymously, anything else is fatal.  The pop is not
logged. -/
def enter : Nat → JState → Res JState
  | 0, _ => .outOfFuel
  | fu+1, st =>
      Res.bind (REQUIRE_STACK st.doc "enter" 1) fun s =>
        match arrRemoveLast s with
        | some (top, s1) =>
            let st1 : JState := { st with doc := objSetFirst st.doc "stack" (.arr s1) }
            match top with
            | .str path =>
                match (if path = "/" then some st1.doc else yyjson_mut_ptr_get st1.doc path) with
                | some (.arr target) => process_ep_array fu st1 (.arr target) path
                | _ => .fatal ("enter: path does not resolve to an array: " ++ path) (some st1.doc)
            | .arr target => process_ep_array fu st1 (.arr target) "<anonymous>"
            | _ => .fatal "enter: top of stack must be a path string or an array" (some st1.doc)
        | none => .fatal "enter: top of stack must be a path string or an array" (some st.doc)
termination_by structural fu _ => fu

/-- Source `map_over`: pop the function array and the data array (grouped
remove patches), run the function over every data element, push the
result array and commit the group. -/
def map_over : Nat → JState → Res JState
  | 0, _ => .outOfFuel
  | fu+1, st =>
      Res.bind (REQUIRE_STACK st.doc "map_over" 2) fun s =>
        let group := residual_group_begin st.doc
        match arrRemoveLast s with
        | some (farr, s1) =>
            let pathF := "/stack/" ++ toString (s.length - 1)
            let doc1 := objSetFirst st.doc "stack" (.arr s1)
            let dg1 := residual_group_add_patch_with_val doc1 group "remove" pathF (some farr)
            match farr with
            | .arr fElems =>
                match arrRemoveLast s1 with
                | some (darr, s2) =>
                    let pathD := "/stack/" ++ toString (s1.length - 1)
                    let doc2 := objSetFirst dg1.1 "stack" (.arr s2)
                    let dg2 := residual_group_add_patch_with_val doc2 dg1.2 "remove" pathD (some darr)
                    match darr with
                    | .arr dElems =>
                        Res.bind (map_over_iterate fu { st with doc := dg2.1 } dElems fElems s2.length []) fun pr =>
                          match objGetFirst pr.1.doc "stack" with
                          | some (.arr s3) =>
                              let doc3 := objSetFirst pr.1.doc "stack" (.arr (s3 ++ [.arr pr.2]))
                              let dg3 := residual_group_add_patch_with_val doc3 dg2.2 "add" "/stack/-" (some (.arr pr.2))
                              .ok { pr.1 with doc := residual_group_commit_opt dg3.1 dg3.2 }
                          | _ => .ok pr.1
                    | _ => .fatal "map_over: second item on stack must be a data array" (some dg2.1)
                | none => .fatal "map_over: second item on stack must be a data array" (some dg1.1)
            | _ => .fatal "map_over: top of stack must be a function array" (some dg1.1)
        | none => .fatal "map_over: top of stack must be a function array" (some st.doc)
termination_by structural fu _ => fu

/-- Source `map_over_iterate`: push a deep copy of each data element, walk the
function frame, require that exactly one extra value resulted, and move
it into the result array. -/
def map_over_iterate : Nat → JState → List JVal → List JVal → Nat → List JVal → Res (JState × List JVal)
  | 0, _, _, _, _, _ => .outOfFuel
  | _+1, st, [], _, _, acc => .ok (st, acc)
  | fu+1, st, d :: drest, fElems, origSize, acc =>
      match objGetFirst st.doc "stack" with
      | some (.arr s) =>
          let st1 : JState := { st with doc := objSetFirst st.doc "stack" (.arr (s ++ [jisp_mut_deep_copy d])) }
          Res.bind (process_ep_array fu st1 (.arr fElems) "/map_over/function") fun st2 =>
            match objGetFirst st2.doc "stack" with
            | some (.arr s2) =>
                if s2.length = origSize + 1 then
                  match arrRemoveLast s2 with
                  | some (r, s3) =>
                      map_over_iterate fu { st2 with doc := objSetFirst st2.doc "stack" (.arr s3) }
                        drest fElems origSize (acc ++ [r])
                  | none =>
                      .fatal "map_over: function must consume its argument and produce exactly one result on the stack. Stack size mismatch." (some st2.doc)
                else
                  .fatal "map_over: function must consume its argument and produce exactly one result on the stack. Stack size mismatch." (some st2.doc)
            | _ =>
                .fatal "map_over: function must consume its argument and produce exactly one result on the stack. Stack size mismatch." (some st2.doc)
      | _ => .ok (st, acc)
termination_by structural fu _ _ _ _ _ => fu

/-- Source `op_test`: log-and-pop the expected value and the program, run the
program in an isolated retained copy, subset-compare, and on mismatch
push a structured test_failure error carrying expected and actual. -/
def op_test : Nat → JState → Res JState
  | 0, _ => .outOfFuel
  | fu+1, st =>
      Res.bind (REQUIRE_STACK st.doc "op_test" 2) fun s =>
        let doc1 := jisp_stack_log_remove_last st.doc
        match arrRemoveLast s with
        | some (expected, s1) =>
            let doc2 := objSetFirst doc1 "stack" (.arr s1)
            let doc3 := jisp_stack_log_remove_last doc2
            match arrRemoveLast s1 with
            | some (program, s2) =>
                let doc4 := objSetFirst doc3 "stack" (.arr s2)
                let sub0 := jpm_doc_retain (jisp_mut_deep_copy program)
                Res.bind (process_entrypoint fu { doc := sub0, ptrs := st.ptrs }) fun sub =>
                  let result := sub.doc
                  if json_subset_equals expected result then
                    .ok { doc := doc4, ptrs := sub.ptrs }
                  else
                    let error_obj :=
                      objAppend (jisp_create_error "test_failure" "Test failed: result mismatch")
                        "details"
                        (.obj [("expected", jisp_mut_deep_copy expected),
                               ("actual", jisp_mut_deep_copy result)])
                    let doc5 := objSetFirst doc4 "stack" (.arr (s2 ++ [error_obj]))
                    .ok { doc := record_patch_add_val doc5 "/stack/-" error_obj, ptrs := sub.ptrs }
            | none => .fatal "test: null arguments" (some doc3)
        | none => .fatal "test: null arguments" (some doc1)
termination_by structural fu _ => fu

/-- Source `step_jisp_op`: log-and-pop a program object, retain an isolated
copy, read its pc (defaulting to 0, appending the default when missing
or non-integer), execute the single instruction at pc when it is in
bounds (appending the incremented pc as a duplicate binding), and push
the resulting document back. -/
def step_jisp_op : Nat → JState → Res JState
  | 0, _ => .outOfFuel
  | fu+1, st =>
      Res.bind (REQUIRE_STACK st.doc "step_jisp_op" 1) fun s =>
        let doc1 := jisp_stack_log_remove_last st.doc
        match arrRemoveLast s with
        | some (program, s1) =>
            let doc2 := objSetFirst doc1 "stack" (.arr s1)
            match program with
            | .obj _ =>
                let sub0 := jpm_doc_retain (jisp_mut_deep_copy program)
                let pcPair :=
                  match objGetFirst sub0 "pc" with
                  | some pcv => if pcv.isInt then (pcv.getSint, sub0) else ((0 : Int), objAppend sub0 "pc" (.int 0))
                  | none => ((0 : Int), objAppend sub0 "pc" (.int 0))
                match objGetFirst pcPair.2 "entrypoint" with
                | some (.arr ep) =>
                    if (0 : Int) ≤ pcPair.1 ∧ pcPair.1.toNat < ep.length then
                      match ep.get? pcPair.1.toNat with
                      | some instruction =>
                          Res.bind (get_stack_fallible pcPair.2 "step") fun _ =>
                            Res.bind (process_one_instruction fu { doc := pcPair.2, ptrs := st.ptrs }
                                        instruction "/entrypoint" pcPair.1.toNat) fun sub2 =>
                              let subFinal := objAppend sub2.doc "pc" (.int (pcPair.1 + 1))
                              let result_copy := jisp_mut_deep_copy subFinal
                              let doc3 := objSetFirst doc2 "stack" (.arr (s1 ++ [result_copy]))
                              .ok { doc := record_patch_add_val doc3 "/stack/-" result_copy, ptrs := sub2.ptrs }
                      | none => .fatal "step: unreachable index" none
                    else
                      let result_copy := jisp_mut_deep_copy pcPair.2
                      let doc3 := objSetFirst doc2 "stack" (.arr (s1 ++ [result_copy]))
                      .ok { doc := record_patch_add_val doc3 "/stack/-" result_copy, ptrs := st.ptrs }
                | _ =>
                    let result_copy := jisp_mut_deep_copy pcPair.2
                    let doc3 := objSetFirst doc2 "stack" (.arr (s1 ++ [result_copy]))
                    .ok { doc := record_patch_add_val doc3 "/stack/-" result_copy, ptrs := st.ptrs }
            | _ => .fatal "step: top of stack must be a program object" (some doc2)
        | none => .fatal "step: top of stack must be a program object" (some doc1)
termination_by structural fu _ => fu

/-- Source `process_entrypoint`: walk the root entrypoint array when present;
documents without one are a no-op. -/
def process_entrypoint : Nat → JState → Res JState
  | 0, _ => .outOfFuel
  | fu+1, st =>
      match objGetFirst st.doc "entrypoint" with
      | some ep => process_ep_array fu st ep "/entrypoint"
      | none => .ok st
termination_by structural fu _ => fu
end

/-! ## Basic lemmas about the document primitives -/

theorem arrRemoveLast_concat (l : List JVal) (x : JVal) :
    arrRemoveLast (l ++ [x]) = some (x, l) := by
  induction l with
  | nil => rfl
  | cons a as ih =>
      rw [List.cons_append]
      cases hb : as ++ [x] with
      | nil => exact absurd hb (by simp)
      | cons b bs =>
          rw [hb] at ih
          simp [arrRemoveLast, ih]

theorem lookupFirst_setFirstL_same (kvs : List (String × JVal)) (k : String) (v : JVal) :
    lookupFirst (setFirstL kvs k v) k = (lookupFirst kvs k).map (fun _ => v) := by
  induction kvs with
  | nil => rfl
  | cons kv rest ih =>
      obtain ⟨k1, v1⟩ := kv
      by_cases h : k1 = k
      · simp [setFirstL, lookupFirst, h]
      · simp [setFirstL, lookupFirst, h, ih]

theorem lookupFirst_setFirstL_ne (kvs : List (String × JVal)) (k k2 : String) (v : JVal)
    (h : k2 ≠ k) :
    lookupFirst (setFirstL kvs k v) k2 = lookupFirst kvs k2 := by
  induction kvs with
  | nil => rfl
  | cons kv rest ih =>
      obtain ⟨k1, v1⟩ := kv
      by_cases h1 : k1 = k
      · subst h1
        simp [setFirstL, lookupFirst, Ne.symm h]
      · simp [setFirstL, lookupFirst, h1, ih]

theorem lookupFirst_append_ne (kvs : List (String × JVal)) (k k2 : String) (v : JVal)
    (h : k2 ≠ k) :
    lookupFirst (kvs ++ [(k, v)]) k2 = lookupFirst kvs k2 := by
  induction kvs with
  | nil => simp [lookupFirst, Ne.symm h]
  | cons kv rest ih =>
      obtain ⟨k1, v1⟩ := kv
      by_cases h1 : k1 = k2
      · simp [lookupFirst, h1]
      · simp [lookupFirst, h1, ih]

theorem lookupFirst_append_self (kvs : List (String × JVal)) (k : String) (v : JVal)
    (h : lookupFirst kvs k = none) :
    lookupFirst (kvs ++ [(k, v)]) k = some v := by
  induction kvs with
  | nil => simp [lookupFirst]
  | cons kv rest ih =>
      obtain ⟨k1, v1⟩ := kv
      by_cases h1 : k1 = k
      · simp [lookupFirst, h1] at h
      · simp [lookupFirst, h1] at h ⊢
        exact ih h

theorem objGetFirst_some_isObj {d : JVal} {k : String} {v : JVal}
    (h : objGetFirst d k = some v) : d.isObj = true := by
  cases d <;> first
    | rfl
    | simp [objGetFirst] at h

theorem ensure_root_object_isObj {d : JVal} (h : d.isObj = true) :
    ensure_root_object d = d := by
  unfold ensure_root_object
  rw [h]
  rfl

theorem objGetFirst_objSetFirst_same (d : JVal) (k : String) (v : JVal) :
    objGetFirst (objSetFirst d k v) k = (objGetFirst d k).map (fun _ => v) := by
  cases d <;> simp [objGetFirst, objSetFirst, lookupFirst_setFirstL_same]

theorem objGetFirst_objSetFirst_ne (d : JVal) (k k2 : String) (v : JVal) (h : k2 ≠ k) :
    objGetFirst (objSetFirst d k v) k2 = objGetFirst d k2 := by
  cases d <;> simp [objGetFirst, objSetFirst, lookupFirst_setFirstL_ne _ _ _ _ h]

theorem objGetFirst_objAppend_ne (d : JVal) (k k2 : String) (v : JVal) (h : k2 ≠ k) :
    objGetFirst (objAppend d k v) k2 = objGetFirst d k2 := by
  cases d <;> simp [objGetFirst, objAppend, lookupFirst_append_ne _ _ _ _ h]

theorem objGetFirst_objAppend_self {d : JVal} (k : String) (v : JVal)
    (hobj : d.isObj = true) (h : objGetFirst d k = none) :
    objGetFirst (objAppend d k v) k = some v := by
  cases d <;> simp [JVal.isObj] at hobj
  simp [objGetFirst, objAppend] at h ⊢
  exact lookupFirst_append_self _ _ _ h

theorem isObj_objSetFirst (d : JVal) (k : String) (v : JVal) :
    (objSetFirst d k v).isObj = d.isObj := by
  cases d <;> rfl

theorem isObj_objAppend (d : JVal) (k : String) (v : JVal) :
    (objAppend d k v).isObj = d.isObj := by
  cases d <;> rfl

theorem isObj_of_reversible {d : JVal} (h : is_reversible_enabled d = true) :
    d.isObj = true := by
  unfold is_reversible_enabled at h
  cases hg : objGetFirst d "is_reversible" with
  | none => rw [hg] at h; simp at h
  | some flag => exact objGetFirst_some_isObj hg

theorem is_reversible_objSetFirst_ne (d : JVal) (k : String) (v : JVal)
    (h : k ≠ "is_reversible") :
    is_reversible_enabled (objSetFirst d k v) = is_reversible_enabled d := by
  unfold is_reversible_enabled
  rw [objGetFirst_objSetFirst_ne _ _ _ _ (Ne.symm h)]

theorem is_reversible_objAppend_ne (d : JVal) (k : String) (v : JVal)
    (h : k ≠ "is_reversible") :
    is_reversible_enabled (objAppend d k v) = is_reversible_enabled d := by
  unfold is_reversible_enabled
  rw [objGetFirst_objAppend_ne _ _ _ _ (Ne.symm h)]

/-! ## Preservation lemmas for the residual-logging and retain helpers -/

theorem objGetFirst_record_patch_with_val (d : JVal) (op path : String) (v : Option JVal)
    (k : String) (hk : k ≠ "residual") :
    objGetFirst (record_patch_with_val d op path v) k = objGetFirst d k := by
  unfold record_patch_with_val
  by_cases hrev : is_reversible_enabled d
  · rw [if_pos hrev]
    unfold ensure_residual_array
    rw [ensure_root_object_isObj (isObj_of_reversible hrev)]
    cases hres : objGetFirst d "residual" with
    | none =>
        simp only [hres]
        rw [objGetFirst_objSetFirst_ne _ _ _ _ hk, objGetFirst_objAppend_ne _ _ _ _ hk]
    | some r =>
        cases r <;> simp only [hres] <;>
          first
            | rw [objGetFirst_objSetFirst_ne _ _ _ _ hk]
            | rfl
  · rw [if_neg hrev]

theorem objGetFirst_record_patch_with_real (d : JVal) (op path : String) (num : Int)
    (k : String) (hk : k ≠ "residual") :
    objGetFirst (record_patch_with_real d op path num) k = objGetFirst d k := by
  unfold record_patch_with_real
  by_cases hrev : is_reversible_enabled d
  · rw [if_pos hrev]
    unfold ensure_residual_array
    rw [ensure_root_object_isObj (isObj_of_reversible hrev)]
    cases hres : objGetFirst d "residual" with
    | none =>
        simp only [hres]
        rw [objGetFirst_objSetFirst_ne _ _ _ _ hk, objGetFirst_objAppend_ne _ _ _ _ hk]
    | some r =>
        cases r <;> simp only [hres] <;>
          first
            | rw [objGetFirst_objSetFirst_ne _ _ _ _ hk]
            | rfl
  · rw [if_neg hrev]

theorem objGetFirst_residual_group_commit (d : JVal) (g : List JVal)
    (k : String) (hk : k ≠ "residual") :
    objGetFirst (residual_group_commit d g) k = objGetFirst d k := by
  unfold residual_group_commit
  by_cases hrev : is_reversible_enabled d
  · rw [if_pos hrev]
    unfold ensure_residual_array
    rw [ensure_root_object_isObj (isObj_of_reversible hrev)]
    cases hres : objGetFirst d "residual" with
    | none =>
        simp only [hres]
        rw [objGetFirst_objSetFirst_ne _ _ _ _ hk, objGetFirst_objAppend_ne _ _ _ _ hk]
    | some r =>
        cases r <;> simp only [hres] <;>
          first
            | rw [objGetFirst_objSetFirst_ne _ _ _ _ hk]
            | rfl
  · rw [if_neg hrev]

theorem objGetFirst_record_patch_add_val (d : JVal) (path : String) (v : JVal)
    (k : String) (hk : k ≠ "residual") :
    objGetFirst (record_patch_add_val d path v) k = objGetFirst d k :=
  objGetFirst_record_patch_with_val d "add" path (some v) k hk

theorem objGetFirst_record_patch_replace_val (d : JVal) (path : String) (v : JVal)
    (k : String) (hk : k ≠ "residual") :
    objGetFirst (record_patch_replace_val d path v) k = objGetFirst d k :=
  objGetFirst_record_patch_with_val d "replace" path (some v) k hk

theorem objGetFirst_jisp_stack_log_remove_last (d : JVal) (k : String) (hk : k ≠ "residual") :
    objGetFirst (jisp_stack_log_remove_last d) k = objGetFirst d k := by
  unfold jisp_stack_log_remove_last
  cases hs : objGetFirst d "stack" with
  | none => rfl
  | some sv =>
      cases sv with
      | arr s =>
          simp only [hs]
          cases hrl : arrRemoveLast s with
          | none => rfl
          | some pr => exact objGetFirst_record_patch_with_val _ _ _ _ _ hk
      | null => rfl
      | bool b => rfl
      | int n => rfl
      | real r => rfl
      | str s2 => rfl
      | obj kvs => rfl

theorem is_reversible_record_patch_with_val (d : JVal) (op path : String) (v : Option JVal) :
    is_reversible_enabled (record_patch_with_val d op path v) = is_reversible_enabled d := by
  unfold is_reversible_enabled
  rw [objGetFirst_record_patch_with_val d op path v _ (by decide)]

theorem is_reversible_jisp_stack_log_remove_last (d : JVal) :
    is_reversible_enabled (jisp_stack_log_remove_last d) = is_reversible_enabled d := by
  unfold is_reversible_enabled
  rw [objGetFirst_jisp_stack_log_remove_last d _ (by decide)]

/-- Exact residual content of a single-entry record when reversibility is
on and the residual field is an array. -/
theorem record_patch_with_val_residual {d : JVal} {r : List JVal} (op path : String)
    (v : Option JVal) (hrev : is_reversible_enabled d = true)
    (hres : objGetFirst d "residual" = some (.arr r)) :
    record_patch_with_val d op path v =
      objSetFirst d "residual" (.arr (r ++ [mkPatch op path v])) := by
  unfold record_patch_with_val ensure_residual_array
  rw [hrev, ensure_root_object_isObj (isObj_of_reversible hrev)]
  simp [hres]

/-- Exact residual content of a group commit. -/
theorem residual_group_commit_residual {d : JVal} {r : List JVal} (g : List JVal)
    (hrev : is_reversible_enabled d = true)
    (hres : objGetFirst d "residual" = some (.arr r)) :
    residual_group_commit d g = objSetFirst d "residual" (.arr (r ++ [.arr g])) := by
  unfold residual_group_commit ensure_residual_array
  rw [hrev, ensure_root_object_isObj (isObj_of_reversible hrev)]
  simp [hres]

/-- Exact residual content of a group commit when the residual field is
absent: the array is created first and the group is its only entry. -/
theorem residual_group_commit_absent {d : JVal} (g : List JVal)
    (hrev : is_reversible_enabled d = true)
    (hres : objGetFirst d "residual" = none) :
    residual_group_commit d g
      = objSetFirst (objAppend d "residual" (.arr [])) "residual" (.arr [.arr g]) := by
  unfold residual_group_commit ensure_residual_array
  rw [hrev, ensure_root_object_isObj (isObj_of_reversible hrev)]
  simp [hres]

/-- The double cast is exact below 2^53. -/
theorem dblRoundPos_small (a : Nat) (h : a < 2 ^ 53) : dblRoundPos a = a := by
  unfold dblRoundPos
  rw [if_pos h]

/-- The double cast modelled by `doubleOfInt` is exact for integers of
magnitude below 2^53. -/
theorem doubleOfInt_small (n : Int) (h : n.natAbs < 2 ^ 53) : doubleOfInt n = n := by
  have e53 : (2 : Nat) ^ 53 = 9007199254740992 := by norm_num
  rw [e53] at h
  unfold doubleOfInt
  by_cases h0 : 0 ≤ n
  · rw [if_pos h0, dblRoundPos_small _ (by rw [e53]; omega)]
    exact Int.toNat_of_nonneg h0
  · rw [if_neg h0, dblRoundPos_small _ (by rw [e53]; omega)]
    omega

theorem stack_after_push_copy_log {d : JVal} {s : List JVal} (e : JVal)
    (h : objGetFirst d "stack" = some (.arr s)) :
    objGetFirst (jisp_stack_push_copy_and_log d e) "stack" = some (.arr (s ++ [e])) := by
  unfold jisp_stack_push_copy_and_log
  simp only [h]
  rw [objGetFirst_record_patch_add_val _ _ _ _ (by decide), objGetFirst_objSetFirst_same, h]
  rfl

theorem objGetFirst_push_copy_log_ne (d : JVal) (e : JVal) (k : String)
    (hk1 : k ≠ "stack") (hk2 : k ≠ "residual") :
    objGetFirst (jisp_stack_push_copy_and_log d e) k = objGetFirst d k := by
  unfold jisp_stack_push_copy_and_log
  cases hs : objGetFirst d "stack" with
  | none => rfl
  | some sv =>
      cases sv with
      | arr s =>
          simp only [hs]
          rw [objGetFirst_record_patch_add_val _ _ _ _ hk2, objGetFirst_objSetFirst_ne _ _ _ _ hk1]
      | null => rfl
      | bool b => rfl
      | int n => rfl
      | real r => rfl
      | str s2 => rfl
      | obj kvs => rfl

theorem objGetFirst_ensure_ref_ne (d : JVal) (k : String) (hk : k ≠ "ref") :
    objGetFirst (ensure_ref_field d) k = objGetFirst d k := by
  by_cases hobj : d.isObj = true
  · unfold ensure_ref_field
    rw [ensure_root_object_isObj hobj]
    cases href : objGetFirst d "ref" with
    | none => simp only [href]; exact objGetFirst_objAppend_ne _ _ _ _ hk
    | some r => simp only [href]; exact objGetFirst_objSetFirst_ne _ _ _ _ hk
  · cases d <;>
      simp [JVal.isObj] at hobj <;>
      simp [ensure_ref_field, ensure_root_object, JVal.isObj, objGetFirst, objAppend,
            lookupFirst, Ne.symm hk]

theorem objGetFirst_jpm_doc_retain_ne (d : JVal) (k : String) (hk : k ≠ "ref") :
    objGetFirst (jpm_doc_retain d) k = objGetFirst d k := by
  unfold jpm_doc_retain
  cases href : objGetFirst (ensure_ref_field d) "ref" with
  | none => simp only [href]; exact objGetFirst_ensure_ref_ne d k hk
  | some r =>
      simp only [href]
      rw [objGetFirst_objSetFirst_ne _ _ _ _ hk]
      exact objGetFirst_ensure_ref_ne d k hk

/-! ## Further auxiliary lemmas -/

theorem objGetFirst_objRemoveAll_self (d : JVal) (k : String) :
    objGetFirst (objRemoveAll d k) k = none := by
  cases d with
  | obj kvs =>
      simp only [objRemoveAll, objGetFirst]
      induction kvs with
      | nil => rfl
      | cons kv rest ih =>
          obtain ⟨k1, v1⟩ := kv
          by_cases h : k1 = k
          · simpa [List.filter, h, lookupFirst] using ih
          · simpa [List.filter, h, lookupFirst] using ih
  | null => rfl
  | bool b => rfl
  | int n => rfl
  | real r => rfl
  | str s => rfl
  | arr xs => rfl

theorem isObj_objRemoveAll (d : JVal) (k : String) :
    (objRemoveAll d k).isObj = d.isObj := by
  cases d <;> rfl

theorem isObj_ensure_root_object (d : JVal) :
    (ensure_root_object d).isObj = true := by
  unfold ensure_root_object
  by_cases h : d.isObj = true
  · rw [if_pos h]; exact h
  · rw [if_neg h]; rfl

theorem stack_prefix_isPrefixOf (s : String) :
    "/stack/".data.isPrefixOf ("/stack/" ++ s).data = true := by
  rw [String.data_append]
  exact List.isPrefixOf_iff_prefix.mpr (List.prefix_append _ _)

/-- Projection of a successful run onto the final document. -/
def Res.okDoc : Res JState → Option JVal
  | .ok st => some st.doc
  | _ => none

/-! ## Claims -/

/-- C1: the spec says the walker consults the opcode registry before
macro expansion when a directive names both.  The code does the
opposite: `process_ep_object` checks `root[name]` first, so a root array
named like a registered opcode shadows that opcode.  The repository's
own manuals document opcode-check first, so this is a code bug.  At the
failing input, `add_two_top` is registered (id 3), yet the walker
macro-expands root add_two_top (pushing the literals 1 and 2) instead of
invoking the opcode, which on the same document would have produced the
stack [30]. -/
theorem C1_macro_shadows_registered_opcode :
    jisp_op_registry_get "add_two_top" = some 3 ∧
    (Res.okDoc (process_entrypoint 32
        { doc := .obj [("stack", .arr [.int 10, .int 20]),
                       ("add_two_top", .arr [.int 1, .int 2]),
                       ("entrypoint", .arr [.obj [(".", .str "add_two_top")]])],
          ptrs := [] })).map (fun d => objGetFirst d "stack")
      = some (some (.arr [.int 10, .int 20, .int 1, .int 2])) ∧
    add_two_top
        { doc := .obj [("stack", .arr [.int 10, .int 20]),
                       ("add_two_top", .arr [.int 1, .int 2]),
                       ("entrypoint", .arr [.obj [(".", .str "add_two_top")]])],
          ptrs := [] }
      = .ok { doc := .obj [("stack", .arr [.int 30]),
                           ("add_two_top", .arr [.int 1, .int 2]),
                           ("entrypoint", .arr [.obj [(".", .str "add_two_top")]])],
              ptrs := [] } :=
  ⟨rfl, rfl, rfl⟩

/-- C2 (counterexample): when `exit` runs as the last instruction of a
nested frame that is itself the last instruction of the entrypoint, no
enclosing frame performs another iteration, so the interrupt flag is
consumed at no frame boundary at all (it survives into the final
document), contradicting "consumed at exactly one enclosing frame
boundary". -/
theorem C2_exit_flag_never_consumed :
    (Res.okDoc (process_entrypoint 32
        { doc := .obj [("stack", .arr []),
                       ("m", .arr [.obj [(".", .str "exit")]]),
                       ("entrypoint", .arr [.obj [(".", .str "m")]])],
          ptrs := [] })).map (fun d => objGetFirst d "_interrupt_exit")
      = some (some (.bool true)) :=
  rfl

/-- C2 (amended): when the exit interrupt is pending, the innermost
enclosing frame that still has an instruction to process consumes the
flag and breaks immediately (executing none of its remaining
instructions); consuming clears the flag, so a second boundary check
does not fire (the exit never unwinds a second frame); and a frame with
no remaining instructions ends without consuming the flag. -/
theorem C2_exit_unwinds_exactly_one_iterating_frame
    (fu : Nat) (st : JState) (e : JVal) (rest : List JVal) (fpath : String) (idx : Nat)
    (hflag : (check_and_clear_exit_interrupt st.doc).1 = true) :
    frame_loop (fu+1) st (e :: rest) fpath idx
        = .ok { st with doc := (check_and_clear_exit_interrupt st.doc).2 } ∧
    (check_and_clear_exit_interrupt (check_and_clear_exit_interrupt st.doc).2).1 = false ∧
    (∀ st2 : JState, frame_loop (fu+1) st2 [] fpath idx = .ok st2) := by
  refine ⟨?_, ?_, fun st2 => rfl⟩
  · cases hc : check_and_clear_exit_interrupt st.doc with
    | mk b d2 =>
        rw [hc] at hflag
        simp only at hflag
        subst hflag
        simp [frame_loop, hc]
  · have hpair : check_and_clear_exit_interrupt st.doc
        = (true, objRemoveAll (ensure_root_object st.doc) "_interrupt_exit") := by
      simp only [check_and_clear_exit_interrupt] at hflag ⊢
      cases hg : objGetFirst (ensure_root_object st.doc) "_interrupt_exit" with
      | none => rw [hg] at hflag; simp at hflag
      | some flag =>
          rw [hg] at hflag
          by_cases hb : flag.getBool = true
          · simp [hb]
          · simp [hb] at hflag
    rw [hpair]
    simp only [check_and_clear_exit_interrupt]
    have hobj : (objRemoveAll (ensure_root_object st.doc) "_interrupt_exit").isObj = true := by
      rw [isObj_objRemoveAll]
      exact isObj_ensure_root_object st.doc
    rw [ensure_root_object_isObj hobj, objGetFirst_objRemoveAll_self]

/-- Witness for C2's amended theorem: a pending interrupt with one
instruction left; the frame returns immediately with the flag cleared. -/
theorem C2_exit_unwinds_exactly_one_iterating_frame_witness :
    frame_loop 1
        { doc := .obj [("_interrupt_exit", .bool true), ("stack", .arr [])], ptrs := [] }
        [.int 1] "/entrypoint" 0
      = .ok { doc := (check_and_clear_exit_interrupt
                (JVal.obj [("_interrupt_exit", .bool true), ("stack", .arr [])])).2,
              ptrs := [] } :=
  (C2_exit_unwinds_exactly_one_iterating_frame 0
    { doc := .obj [("_interrupt_exit", .bool true), ("stack", .arr [])], ptrs := [] }
    (.int 1) [] "/entrypoint" 0 rfl).1

/-- C4 (counterexample): `pop_and_store` on a reversible document with a
non-string key logs the remove patch for the key pop *before* validating
the key, so the fatal abort leaves a partial patch in the residual log
(the pre-abort residual was empty; the dumped state holds one remove
patch), contradicting "the aborting opcode leaves no partial patch
entries in residual". -/
theorem C4_abort_leaves_partial_patch :
    pop_and_store
        { doc := .obj [("is_reversible", .bool true), ("residual", .arr []),
                       ("stack", .arr [.int 5, .int 7])], ptrs := [] }
      = .fatal "pop_and_store: key must be a string"
          (some (.obj [("is_reversible", .bool true),
                       ("residual", .arr [.obj [("op", .str "remove"),
                                                ("path", .str "/stack/1"),
                                                ("value", .int 7)]]),
                       ("stack", .arr [.int 5])])) :=
  rfl

/-- C7 (counterexample): a null entrypoint element is not pushed as a
literal; the walker aborts fatally ("entrypoint element is not a string,
number, array, or object"), contradicting the claim that every literal
scalar (including null and booleans) is pushed. -/
theorem C7_null_literal_is_fatal :
    process_entrypoint 32
        { doc := .obj [("stack", .arr []), ("entrypoint", .arr [.null])], ptrs := [] }
      = .fatal "entrypoint element is not a string, number, array, or object"
          (some (.obj [("stack", .arr []), ("entrypoint", .arr [.null]),
                       ("call_stack", .arr [.str "/entrypoint"])])) :=
  rfl

/-- C7 (amended): entrypoint elements that are strings, numbers (integer
or real) or arrays are pushed (deep-copied, with logging) onto the
operand stack and execution continues; null and boolean elements are
fatal ("entrypoint element is not a string, number, array, or
object"). -/
theorem C7_literal_elements_pushed_null_bool_fatal
    (fu : Nat) (st : JState) (fpath : String) (idx : Nat) (s : List JVal)
    (h : objGetFirst st.doc "stack" = some (.arr s)) :
    (∀ e : JVal, (e.isStr || e.isNum || e.isArr) = true →
        process_one_instruction (fu+1) st e fpath idx
          = .ok { st with doc := jisp_stack_push_copy_and_log st.doc e } ∧
        objGetFirst (jisp_stack_push_copy_and_log st.doc e) "stack"
          = some (.arr (s ++ [jisp_mut_deep_copy e]))) ∧
    process_one_instruction (fu+1) st .null fpath idx
      = .fatal "entrypoint element is not a string, number, array, or object" (some st.doc) ∧
    (∀ b : Bool, process_one_instruction (fu+1) st (.bool b) fpath idx
      = .fatal "entrypoint element is not a string, number, array, or object" (some st.doc)) := by
  refine ⟨fun e he => ?_, rfl, fun b => rfl⟩
  cases e with
  | str s2 => exact ⟨rfl, stack_after_push_copy_log _ h⟩
  | int n => exact ⟨rfl, stack_after_push_copy_log _ h⟩
  | real r => exact ⟨rfl, stack_after_push_copy_log _ h⟩
  | arr xs => exact ⟨rfl, stack_after_push_copy_log _ h⟩
  | null => simp [JVal.isStr, JVal.isNum, JVal.isArr] at he
  | bool b => simp [JVal.isStr, JVal.isNum, JVal.isArr] at he
  | obj kvs => simp [JVal.isStr, JVal.isNum, JVal.isArr] at he

/-- Witness for C7's amended theorem: pushing the literal 5 onto an
empty stack. -/
theorem C7_literal_elements_pushed_null_bool_fatal_witness :
    process_one_instruction 1
        { doc := .obj [("stack", .arr [])], ptrs := [] } (.int 5) "/entrypoint" 0
      = .ok { doc := jisp_stack_push_copy_and_log (.obj [("stack", .arr [])]) (.int 5),
              ptrs := [] } ∧
    objGetFirst (jisp_stack_push_copy_and_log (.obj [("stack", .arr [])]) (.int 5)) "stack"
      = some (.arr [.int 5]) :=
  ((C7_literal_elements_pushed_null_bool_fatal 0
      { doc := .obj [("stack", .arr [])], ptrs := [] } "/entrypoint" 0 [] rfl).1
    (.int 5) rfl)

/-- C10: the pointer stack capacity is exactly `MAX_PTR_STACK = 64`:
every `ptr_stack_push` with fewer than 64 live handles succeeds, and
with 64 live handles `ptr_new` (here invoked with a valid path argument,
the root pointer, so that nothing else can fail first) aborts fatally
with the pointer-stack-overflow message. -/
theorem C10_ptr_stack_capacity_64
    (ptrs : List jpm_ptr) (p : jpm_ptr) (hlt : ptrs.length < 64)
    (st : JState) (s1 : List JVal)
    (hfull : st.ptrs.length = 64)
    (hstack : objGetFirst st.doc "stack" = some (.arr (s1 ++ [.str "/"]))) :
    MAX_PTR_STACK = 64 ∧
    ptr_stack_push ptrs p = .ok (p :: ptrs) ∧
    ptr_new st = .fatal "Pointer stack overflow (max 64)" none := by
  refine ⟨rfl, ?_, ?_⟩
  · unfold ptr_stack_push MAX_PTR_STACK
    rw [if_neg (by omega)]
  · have hlen : ¬ ((s1 ++ [JVal.str "/"]).length < 1) := by simp
    have hfull2 : MAX_PTR_STACK ≤ st.ptrs.length := by
      rw [hfull, MAX_PTR_STACK]
    simp only [ptr_new, REQUIRE_STACK, hstack, if_neg hlen, Res.bind, arrRemoveLast_concat,
               jpm_return, if_pos rfl, ptr_stack_push, if_pos hfull2, Res.bind]
    simp

/-- Witness for C10: a push at 63 live handles succeeds; `ptr_new` at 64
live handles overflows. -/
theorem C10_ptr_stack_capacity_64_witness :
    ptr_stack_push (List.replicate 63 ⟨"/"⟩) ⟨"/"⟩
      = .ok (⟨"/"⟩ :: List.replicate 63 ⟨"/"⟩) ∧
    ptr_new { doc := .obj [("stack", .arr [.str "/"])], ptrs := List.replicate 64 ⟨"/"⟩ }
      = .fatal "Pointer stack overflow (max 64)" none :=
  ⟨(C10_ptr_stack_capacity_64 (List.replicate 63 ⟨"/"⟩) ⟨"/"⟩ (by decide)
      { doc := .obj [("stack", .arr [.str "/"])], ptrs := List.replicate 64 ⟨"/"⟩ }
      [] rfl rfl).2.1,
   (C10_ptr_stack_capacity_64 (List.replicate 63 ⟨"/"⟩) ⟨"/"⟩ (by decide)
      { doc := .obj [("stack", .arr [.str "/"])], ptrs := List.replicate 64 ⟨"/"⟩ }
      [] rfl rfl).2.2⟩

/-- A record with reversibility off is a no-op. -/
theorem record_patch_with_val_not_reversible (d : JVal) (op path : String) (v : Option JVal)
    (h : is_reversible_enabled d = false) :
    record_patch_with_val d op path v = d := by
  unfold record_patch_with_val
  simp [h]

/-- C4 (amended): grouped opcodes abort atomically — a fatal abort of
`add_two_top` on a non-numeric operand happens before its group commit,
so the dumped state carries the residual log unchanged. -/
theorem C4_grouped_abort_atomic (st : JState) (rest : List JVal) (a b : JVal) (r0 : List JVal)
    (hres : objGetFirst st.doc "residual" = some (.arr r0))
    (hstack : objGetFirst st.doc "stack" = some (.arr (rest ++ [a, b])))
    (hnum : (b.isNum && a.isNum) = false) :
    ∃ dump, add_two_top st = .fatal "add_two_top: operands must be numeric" (some dump) ∧
      objGetFirst dump "residual" = some (.arr r0) := by
  have hsplit : rest ++ [a, b] = (rest ++ [a]) ++ [b] := by simp
  have hlen : ¬ ((rest ++ [a, b]).length < 2) := by simp
  refine ⟨objSetFirst (objSetFirst st.doc "stack" (.arr (rest ++ [a]))) "stack" (.arr rest),
          ?_, ?_⟩
  · unfold add_two_top REQUIRE_STACK
    simp only [hstack]
    rw [if_neg hlen]
    simp only [Res.bind]
    rw [hsplit, arrRemoveLast_concat]
    cases hg : residual_group_begin st.doc with
    | some g =>
        simp only [residual_group_add_patch_with_val, arrRemoveLast_concat, hnum,
                   Bool.false_eq_true, if_false]
    | none =>
        have hrevF : is_reversible_enabled st.doc = false := by
          unfold residual_group_begin at hg
          by_cases h : is_reversible_enabled st.doc
          · rw [if_pos h] at hg; cases hg
          · simpa using h
        have h1 : is_reversible_enabled (objSetFirst st.doc "stack" (.arr (rest ++ [a]))) = false := by
          rw [is_reversible_objSetFirst_ne _ _ _ (by decide)]
          exact hrevF
        have h2 : is_reversible_enabled
            (objSetFirst (objSetFirst st.doc "stack" (.arr (rest ++ [a]))) "stack" (.arr rest))
            = false := by
          rw [is_reversible_objSetFirst_ne _ _ _ (by decide)]
          exact h1
        simp only [residual_group_add_patch_with_val, arrRemoveLast_concat,
                   record_patch_with_val_not_reversible _ _ _ _ h1,
                   record_patch_with_val_not_reversible _ _ _ _ h2, hnum,
                   Bool.false_eq_true, if_false]
  · rw [objGetFirst_objSetFirst_ne _ _ _ _ (by decide),
        objGetFirst_objSetFirst_ne _ _ _ _ (by decide)]
    exact hres

/-- Witness for C4's amended theorem: `add_two_top` on a reversible
document with a string operand aborts; the dumped state keeps the empty
residual log. -/
theorem C4_grouped_abort_atomic_witness :
    add_two_top { doc := .obj [("is_reversible", .bool true), ("residual", .arr []),
                               ("stack", .arr [.int 5, .str "x"])], ptrs := [] }
      = .fatal "add_two_top: operands must be numeric"
          (some (.obj [("is_reversible", .bool true), ("residual", .arr []),
                       ("stack", .arr [])])) := by
  obtain ⟨dump, h1, h2⟩ :=
    C4_grouped_abort_atomic
      { doc := .obj [("is_reversible", .bool true), ("residual", .arr []),
                     ("stack", .arr [.int 5, .str "x"])], ptrs := [] }
      [] (.int 5) (.str "x") [] rfl rfl rfl
  exact rfl

set_option maxHeartbeats 2000000 in
/-- C5 (amended): `add_two_top` on two integer operands pops both and
pushes an integer (integer subtype preserved); the C routes the int64
payloads through IEEE-754 doubles (`(double)yyjson_mut_get_sint` casts
and a double addition), so the pushed integer equals the exact sum A+B
whenever A, B and A+B all stay below 2^53 in magnitude (it rounds
otherwise — see the counterexample); and scenario S1 ends in a document
subset-matching stack [] with temp_sum 30. -/
theorem C5_add_two_top_integer_sum (st : JState) (rest : List JVal) (a b : Int)
    (hstack : objGetFirst st.doc "stack" = some (.arr (rest ++ [.int a, .int b])))
    (ha : a.natAbs < 2 ^ 53) (hb : b.natAbs < 2 ^ 53) (hab : (a + b).natAbs < 2 ^ 53) :
    (∃ d2, add_two_top st = .ok { st with doc := d2 } ∧
        objGetFirst d2 "stack" = some (.arr (rest ++ [.int (a + b)]))) ∧
    (Res.okDoc (process_entrypoint 32
        { doc := .obj [("stack", .arr []),
                       ("entrypoint", .arr [.int 10, .int 20, .obj [(".", .str "add_two_top")],
                                            .str "temp_sum", .obj [(".", .str "pop_and_store")]])],
          ptrs := [] })).map
        (fun d => json_subset_equals (.obj [("stack", .arr []), ("temp_sum", .int 30)]) d)
      = some true := by
  refine ⟨?_, rfl⟩
  have hsplit : rest ++ [JVal.int a, JVal.int b] = (rest ++ [JVal.int a]) ++ [JVal.int b] := by
    simp
  have hlen : ¬ ((rest ++ [JVal.int a, JVal.int b]).length < 2) := by simp
  have hsum : doubleAdd (doubleOfInt b) (doubleOfInt a) = b + a := by
    rw [doubleOfInt_small b hb, doubleOfInt_small a ha]
    show doubleOfInt (b + a) = b + a
    exact doubleOfInt_small _ (by rw [Int.add_comm b a]; exact hab)
  rw [Int.add_comm a b]
  unfold add_two_top REQUIRE_STACK
  simp only [hstack]
  rw [if_neg hlen]
  simp only [Res.bind]
  rw [hsplit, arrRemoveLast_concat]
  cases hg : residual_group_begin st.doc with
  | some g =>
      simp only [residual_group_add_patch_with_val, arrRemoveLast_concat, JVal.isNum,
                 Bool.and_self, if_true, JVal.getSint, hsum,
                 residual_group_add_patch_with_real, residual_group_commit_opt]
      refine ⟨_, rfl, ?_⟩
      rw [objGetFirst_residual_group_commit _ _ _ (by decide),
          objGetFirst_objSetFirst_same, objGetFirst_objSetFirst_same,
          objGetFirst_objSetFirst_same, hstack]
      rfl
  | none =>
      have hrevF : is_reversible_enabled st.doc = false := by
        unfold residual_group_begin at hg
        by_cases h : is_reversible_enabled st.doc
        · rw [if_pos h] at hg; cases hg
        · simpa using h
      have h1 : is_reversible_enabled (objSetFirst st.doc "stack" (.arr (rest ++ [.int a])))
          = false := by
        rw [is_reversible_objSetFirst_ne _ _ _ (by decide)]
        exact hrevF
      have h2 : is_reversible_enabled
          (objSetFirst (objSetFirst st.doc "stack" (.arr (rest ++ [.int a]))) "stack" (.arr rest))
          = false := by
        rw [is_reversible_objSetFirst_ne _ _ _ (by decide)]
        exact h1
      have h3 : is_reversible_enabled
          (objSetFirst (objSetFirst (objSetFirst st.doc "stack" (.arr (rest ++ [.int a])))
              "stack" (.arr rest)) "stack" (.arr (rest ++ [.int (b + a)])))
          = false := by
        rw [is_reversible_objSetFirst_ne _ _ _ (by decide)]
        exact h2
      have hrec3 : record_patch_with_real
          (objSetFirst (objSetFirst (objSetFirst st.doc "stack" (.arr (rest ++ [.int a])))
              "stack" (.arr rest)) "stack" (.arr (rest ++ [.int (b + a)])))
          "add" "/stack/-" (b + a)
          = objSetFirst (objSetFirst (objSetFirst st.doc "stack" (.arr (rest ++ [.int a])))
              "stack" (.arr rest)) "stack" (.arr (rest ++ [.int (b + a)])) := by
        unfold record_patch_with_real
        simp [h3]
      simp only [residual_group_add_patch_with_val, arrRemoveLast_concat, JVal.isNum,
                 Bool.and_self, if_true, JVal.getSint, hsum,
                 residual_group_add_patch_with_real, residual_group_commit_opt,
                 record_patch_with_val_not_reversible _ _ _ _ h1,
                 record_patch_with_val_not_reversible _ _ _ _ h2, hrec3]
      refine ⟨_, rfl, ?_⟩
      rw [objGetFirst_objSetFirst_same, objGetFirst_objSetFirst_same,
          objGetFirst_objSetFirst_same, hstack]
      rfl

/-- Witness for C5: the general statement at stack [10, 20] (sum pushed
as the integer 30), plus the closed S1 scenario conjunct. -/
theorem C5_add_two_top_integer_sum_witness :
    add_two_top { doc := .obj [("stack", .arr [.int 10, .int 20])], ptrs := [] }
      = .ok { doc := .obj [("stack", .arr [.int 30])], ptrs := [] } ∧
    (Res.okDoc (process_entrypoint 32
        { doc := .obj [("stack", .arr []),
                       ("entrypoint", .arr [.int 10, .int 20, .obj [(".", .str "add_two_top")],
                                            .str "temp_sum", .obj [(".", .str "pop_and_store")]])],
          ptrs := [] })).map
        (fun d => json_subset_equals (.obj [("stack", .arr []), ("temp_sum", .int 30)]) d)
      = some true := by
  obtain ⟨⟨d2, h1, h2⟩, hS1⟩ :=
    C5_add_two_top_integer_sum
      { doc := .obj [("stack", .arr [.int 10, .int 20])], ptrs := [] } [] 10 20 rfl
      (by decide) (by decide) (by decide)
  exact ⟨rfl, hS1⟩

/-- C5 (counterexample): the C sums through IEEE-754 doubles, so
`add_two_top` on the int64-representable operands 2^53+1 and 1 pushes
2^53 = 9007199254740992 (the tie rounds to the even significand), not
the exact sum 9007199254740994: integer sums stop being exact once an
operand reaches 2^53. -/
theorem C5_add_two_top_sum_rounds_to_double :
    (Res.okDoc (add_two_top
        { doc := .obj [("stack", .arr [.int 9007199254740993, .int 1])],
          ptrs := [] })).map (fun d => objGetFirst d "stack")
      = some (some (.arr [.int 9007199254740992])) ∧
    (9007199254740993 : Int) + 1 = 9007199254740994 := by
  exact ⟨rfl, rfl⟩

/-- Undoing an add patch at the stack-append path pops the top. -/
theorem undo_one_patch_add_stack (doc : JVal) (rest2 : List JVal) (x v : JVal)
    (hstack : objGetFirst doc "stack" = some (.arr (rest2 ++ [x]))) :
    undo_one_patch doc (.obj [("op", .str "add"), ("path", .str "/stack/-"), ("value", v)])
      = .ok (objSetFirst doc "stack" (.arr rest2)) := by
  cases doc with
  | obj kvs =>
      unfold undo_one_patch undo_op_add
      simp only [objGetFirst] at hstack
      simp [objGetFirst, lookupFirst, hstack, arrRemoveLast_concat]
  | null => simp [objGetFirst] at hstack
  | bool b2 => simp [objGetFirst] at hstack
  | int n => simp [objGetFirst] at hstack
  | real r => simp [objGetFirst] at hstack
  | str s2 => simp [objGetFirst] at hstack
  | arr xs => simp [objGetFirst] at hstack

/-- Undoing a remove patch at a stack path re-appends the captured
value. -/
theorem undo_one_patch_remove_stack (doc : JVal) (s2 : List JVal) (tail : String) (v : JVal)
    (hstack : objGetFirst doc "stack" = some (.arr s2)) :
    undo_one_patch doc
        (.obj [("op", .str "remove"), ("path", .str ("/stack/" ++ tail)), ("value", v)])
      = .ok (objSetFirst doc "stack" (.arr (s2 ++ [v]))) := by
  cases doc with
  | obj kvs =>
      unfold undo_one_patch undo_op_remove
      simp only [objGetFirst] at hstack
      simp [objGetFirst, lookupFirst, hstack, stack_prefix_isPrefixOf, jisp_mut_deep_copy]
  | null => simp [objGetFirst] at hstack
  | bool b2 => simp [objGetFirst] at hstack
  | int n => simp [objGetFirst] at hstack
  | real r => simp [objGetFirst] at hstack
  | str s2x => simp [objGetFirst] at hstack
  | arr xs => simp [objGetFirst] at hstack

set_option maxHeartbeats 800000 in
/-- With reversibility on and two numeric operands on top, `add_two_top`
pops both, pushes the double-rounded sum as an integer, and commits the
three-patch group (two indexed removes with the captured operands, one
stack-append add carrying the sum as a real). -/
theorem add_two_top_reversible_eq (st : JState) (rest : List JVal) (a b : JVal)
    (hrev : is_reversible_enabled st.doc = true)
    (hstack : objGetFirst st.doc "stack" = some (.arr (rest ++ [a, b])))
    (ha : a.isNum = true) (hb : b.isNum = true) :
    add_two_top st = .ok { st with doc :=
      (residual_group_commit
        (objSetFirst (objSetFirst (objSetFirst st.doc "stack" (.arr (rest ++ [a])))
            "stack" (.arr rest)) "stack"
            (.arr (rest ++ [.int (doubleAdd (doubleOfInt b.getSint) (doubleOfInt a.getSint))])))
        [mkPatch "remove" ("/stack/" ++ toString ((rest ++ [a] ++ [b]).length - 1)) (some b),
         mkPatch "remove" ("/stack/" ++ toString ((rest ++ [a]).length - 1)) (some a),
         .obj [("op", .str "add"), ("path", .str "/stack/-"),
               ("value", .real (doubleAdd (doubleOfInt b.getSint) (doubleOfInt a.getSint)))]]) } := by
  have hsplit : rest ++ [a, b] = (rest ++ [a]) ++ [b] := by simp
  have hlen : ¬ ((rest ++ [a, b]).length < 2) := by simp
  unfold add_two_top REQUIRE_STACK
  simp only [hstack]
  rw [if_neg hlen]
  simp only [Res.bind]
  rw [hsplit, arrRemoveLast_concat]
  simp only [residual_group_begin, hrev, if_true, residual_group_add_patch_with_val,
             arrRemoveLast_concat, hb, ha, Bool.and_self,
             residual_group_add_patch_with_real, residual_group_commit_opt]
  rfl

/-- Undoing a committed `add_two_top` group (the popped residual entry)
pops the pushed sum and re-appends the two captured operands in order. -/
theorem perform_undo_add_group (d1 : JVal) (r0 srest : List JVal) (S : Int)
    (ta tb : String) (a b : JVal)
    (hres : objGetFirst d1 "residual" = some (.arr (r0 ++
      [.arr [.obj [("op", .str "remove"), ("path", .str ("/stack/" ++ tb)), ("value", b)],
             .obj [("op", .str "remove"), ("path", .str ("/stack/" ++ ta)), ("value", a)],
             .obj [("op", .str "add"), ("path", .str "/stack/-"), ("value", .real S)]]])))
    (hstack : objGetFirst d1 "stack" = some (.arr (srest ++ [.int S]))) :
    ∃ d2, perform_undo d1 = .ok d2 ∧
      objGetFirst d2 "stack" = some (.arr (srest ++ [a, b])) := by
  have hd2stack : objGetFirst (objSetFirst d1 "residual" (.arr r0)) "stack"
      = some (.arr (srest ++ [.int S])) := by
    rw [objGetFirst_objSetFirst_ne _ _ _ _ (by decide)]
    exact hstack
  have hda : objGetFirst (objSetFirst (objSetFirst d1 "residual" (.arr r0)) "stack"
      (.arr srest)) "stack" = some (.arr srest) := by
    rw [objGetFirst_objSetFirst_same, hd2stack]
    rfl
  have hdb : objGetFirst (objSetFirst (objSetFirst (objSetFirst d1 "residual" (.arr r0))
      "stack" (.arr srest)) "stack" (.arr (srest ++ [a]))) "stack"
      = some (.arr (srest ++ [a])) := by
    rw [objGetFirst_objSetFirst_same, hda]
    rfl
  refine ⟨objSetFirst (objSetFirst (objSetFirst (objSetFirst d1 "residual" (.arr r0))
      "stack" (.arr srest)) "stack" (.arr (srest ++ [a]))) "stack"
      (.arr (srest ++ [a] ++ [b])), ?_, ?_⟩
  · unfold perform_undo
    simp only [hres, arrRemoveLast_concat]
    simp only [List.reverse_cons, List.reverse_nil, List.nil_append, List.cons_append,
               List.append_nil, undo_group_rev]
    rw [undo_one_patch_add_stack _ srest (.int S) (.real S) hd2stack]
    simp only [Res.bind, undo_group_rev]
    rw [undo_one_patch_remove_stack _ srest ta a hda]
    simp only [Res.bind, undo_group_rev]
    rw [undo_one_patch_remove_stack _ (srest ++ [a]) tb b hdb]
  · rw [objGetFirst_objSetFirst_same, hdb]
    simp

set_option maxHeartbeats 1000000 in
/-- C3 (amended): with reversibility on, two numeric values (integer or
real subtype) on top of the stack, and a residual field that is absent
or an array, running `add_two_top` and then one undo step
(`perform_undo`: pop the last residual entry — the committed group —
and invert its patches in reverse order) restores the stack to its
pre-`add_two_top` contents element-wise.  A present non-array residual
field instead makes the commit skip logging and the undo step fatal
(see the counterexample). -/
theorem C3_add_two_top_undo_restores_stack (st : JState) (rest : List JVal) (a b : JVal)
    (hrev : is_reversible_enabled st.doc = true)
    (hstack : objGetFirst st.doc "stack" = some (.arr (rest ++ [a, b])))
    (ha : a.isNum = true) (hb : b.isNum = true)
    (hres : objGetFirst st.doc "residual" = none ∨
            ∃ r0, objGetFirst st.doc "residual" = some (.arr r0)) :
    ∃ d1 d2, add_two_top st = .ok { st with doc := d1 } ∧
      perform_undo d1 = .ok d2 ∧
      objGetFirst d2 "stack" = some (.arr (rest ++ [a, b])) := by
  have hadd := add_two_top_reversible_eq st rest a b hrev hstack ha hb
  have hrev3 : is_reversible_enabled
      (objSetFirst (objSetFirst (objSetFirst st.doc "stack" (.arr (rest ++ [a])))
          "stack" (.arr rest)) "stack"
          (.arr (rest ++ [.int (doubleAdd (doubleOfInt b.getSint) (doubleOfInt a.getSint))])))
      = true := by
    rw [is_reversible_objSetFirst_ne _ _ _ (by decide),
        is_reversible_objSetFirst_ne _ _ _ (by decide),
        is_reversible_objSetFirst_ne _ _ _ (by decide)]
    exact hrev
  have hstack3 : objGetFirst
      (objSetFirst (objSetFirst (objSetFirst st.doc "stack" (.arr (rest ++ [a])))
          "stack" (.arr rest)) "stack"
          (.arr (rest ++ [.int (doubleAdd (doubleOfInt b.getSint) (doubleOfInt a.getSint))])))
      "stack"
      = some (.arr (rest ++ [.int (doubleAdd (doubleOfInt b.getSint)
          (doubleOfInt a.getSint))])) := by
    rw [objGetFirst_objSetFirst_same, objGetFirst_objSetFirst_same,
        objGetFirst_objSetFirst_same, hstack]
    rfl
  have hres3 : objGetFirst
      (objSetFirst (objSetFirst (objSetFirst st.doc "stack" (.arr (rest ++ [a])))
          "stack" (.arr rest)) "stack"
          (.arr (rest ++ [.int (doubleAdd (doubleOfInt b.getSint) (doubleOfInt a.getSint))])))
      "residual" = objGetFirst st.doc "residual" := by
    rw [objGetFirst_objSetFirst_ne _ _ _ _ (by decide),
        objGetFirst_objSetFirst_ne _ _ _ _ (by decide),
        objGetFirst_objSetFirst_ne _ _ _ _ (by decide)]
  rcases hres with hnone | ⟨r0, hr0⟩
  · have hobj3 : (objSetFirst (objSetFirst (objSetFirst st.doc "stack"
        (.arr (rest ++ [a]))) "stack" (.arr rest)) "stack"
        (.arr (rest ++ [.int (doubleAdd (doubleOfInt b.getSint)
            (doubleOfInt a.getSint))]))).isObj = true := by
      rw [isObj_objSetFirst, isObj_objSetFirst, isObj_objSetFirst]
      exact isObj_of_reversible hrev
    have hres3n := hres3.trans hnone
    rw [residual_group_commit_absent _ hrev3 hres3n] at hadd
    have hd1res : objGetFirst (objSetFirst (objAppend
        (objSetFirst (objSetFirst (objSetFirst st.doc "stack" (.arr (rest ++ [a])))
            "stack" (.arr rest)) "stack"
            (.arr (rest ++ [.int (doubleAdd (doubleOfInt b.getSint)
                (doubleOfInt a.getSint))])))
        "residual" (.arr []))
        "residual"
        (.arr [.arr [mkPatch "remove"
                       ("/stack/" ++ toString ((rest ++ [a] ++ [b]).length - 1)) (some b),
                     mkPatch "remove"
                       ("/stack/" ++ toString ((rest ++ [a]).length - 1)) (some a),
                     .obj [("op", .str "add"), ("path", .str "/stack/-"),
                           ("value", .real (doubleAdd (doubleOfInt b.getSint)
                               (doubleOfInt a.getSint)))]]]))
        "residual"
        = some (.arr [.arr [mkPatch "remove"
                       ("/stack/" ++ toString ((rest ++ [a] ++ [b]).length - 1)) (some b),
                     mkPatch "remove"
                       ("/stack/" ++ toString ((rest ++ [a]).length - 1)) (some a),
                     .obj [("op", .str "add"), ("path", .str "/stack/-"),
                           ("value", .real (doubleAdd (doubleOfInt b.getSint)
                               (doubleOfInt a.getSint)))]]]) := by
      rw [objGetFirst_objSetFirst_same, objGetFirst_objAppend_self _ _ hobj3 hres3n]
      rfl
    have hd1stack : objGetFirst (objSetFirst (objAppend
        (objSetFirst (objSetFirst (objSetFirst st.doc "stack" (.arr (rest ++ [a])))
            "stack" (.arr rest)) "stack"
            (.arr (rest ++ [.int (doubleAdd (doubleOfInt b.getSint)
                (doubleOfInt a.getSint))])))
        "residual" (.arr []))
        "residual"
        (.arr [.arr [mkPatch "remove"
                       ("/stack/" ++ toString ((rest ++ [a] ++ [b]).length - 1)) (some b),
                     mkPatch "remove"
                       ("/stack/" ++ toString ((rest ++ [a]).length - 1)) (some a),
                     .obj [("op", .str "add"), ("path", .str "/stack/-"),
                           ("value", .real (doubleAdd (doubleOfInt b.getSint)
                               (doubleOfInt a.getSint)))]]]))
        "stack" = some (.arr (rest ++ [.int (doubleAdd (doubleOfInt b.getSint)
            (doubleOfInt a.getSint))])) := by
      rw [objGetFirst_objSetFirst_ne _ _ _ _ (by decide),
          objGetFirst_objAppend_ne _ _ _ _ (by decide)]
      exact hstack3
    obtain ⟨d2, hu, hs⟩ := perform_undo_add_group _ [] rest
        (doubleAdd (doubleOfInt b.getSint) (doubleOfInt a.getSint))
        (toString ((rest ++ [a]).length - 1)) (toString ((rest ++ [a] ++ [b]).length - 1))
        a b hd1res hd1stack
    exact ⟨_, d2, hadd, hu, hs⟩
  · have hres3s := hres3.trans hr0
    rw [residual_group_commit_residual _ hrev3 hres3s] at hadd
    have hd1res : objGetFirst (objSetFirst
        (objSetFirst (objSetFirst (objSetFirst st.doc "stack" (.arr (rest ++ [a])))
            "stack" (.arr rest)) "stack"
            (.arr (rest ++ [.int (doubleAdd (doubleOfInt b.getSint)
                (doubleOfInt a.getSint))])))
        "residual"
        (.arr (r0 ++ [.arr [mkPatch "remove"
                       ("/stack/" ++ toString ((rest ++ [a] ++ [b]).length - 1)) (some b),
                     mkPatch "remove"
                       ("/stack/" ++ toString ((rest ++ [a]).length - 1)) (some a),
                     .obj [("op", .str "add"), ("path", .str "/stack/-"),
                           ("value", .real (doubleAdd (doubleOfInt b.getSint)
                               (doubleOfInt a.getSint)))]]])))
        "residual"
        = some (.arr (r0 ++ [.arr [mkPatch "remove"
                       ("/stack/" ++ toString ((rest ++ [a] ++ [b]).length - 1)) (some b),
                     mkPatch "remove"
                       ("/stack/" ++ toString ((rest ++ [a]).length - 1)) (some a),
                     .obj [("op", .str "add"), ("path", .str "/stack/-"),
                           ("value", .real (doubleAdd (doubleOfInt b.getSint)
                               (doubleOfInt a.getSint)))]]])) := by
      rw [objGetFirst_objSetFirst_same, hres3s]
      rfl
    have hd1stack : objGetFirst (objSetFirst
        (objSetFirst (objSetFirst (objSetFirst st.doc "stack" (.arr (rest ++ [a])))
            "stack" (.arr rest)) "stack"
            (.arr (rest ++ [.int (doubleAdd (doubleOfInt b.getSint)
                (doubleOfInt a.getSint))])))
        "residual"
        (.arr (r0 ++ [.arr [mkPatch "remove"
                       ("/stack/" ++ toString ((rest ++ [a] ++ [b]).length - 1)) (some b),
                     mkPatch "remove"
                       ("/stack/" ++ toString ((rest ++ [a]).length - 1)) (some a),
                     .obj [("op", .str "add"), ("path", .str "/stack/-"),
                           ("value", .real (doubleAdd (doubleOfInt b.getSint)
                               (doubleOfInt a.getSint)))]]])))
        "stack" = some (.arr (rest ++ [.int (doubleAdd (doubleOfInt b.getSint)
            (doubleOfInt a.getSint))])) := by
      rw [objGetFirst_objSetFirst_ne _ _ _ _ (by decide)]
      exact hstack3
    obtain ⟨d2, hu, hs⟩ := perform_undo_add_group _ r0 rest
        (doubleAdd (doubleOfInt b.getSint) (doubleOfInt a.getSint))
        (toString ((rest ++ [a]).length - 1)) (toString ((rest ++ [a] ++ [b]).length - 1))
        a b hd1res hd1stack
    exact ⟨_, d2, hadd, hu, hs⟩

/-- C3 (counterexample to the unconditional round trip): with
reversibility on but a present non-array residual field, `add_two_top`
succeeds with its patch group silently dropped (`ensure_residual_array`
refuses to touch the field), and the following undo step is fatal while
the stack still holds the sum — nothing is restored. -/
theorem C3_undo_fatal_on_non_array_residual :
    (match add_two_top { doc := .obj [("is_reversible", .bool true), ("residual", .int 5),
                                      ("stack", .arr [.int 1, .int 2])], ptrs := [] } with
     | .ok st1 => some (objGetFirst st1.doc "stack", perform_undo st1.doc)
     | _ => none)
      = some (some (.arr [.int 3]),
              .fatal "undo: residual is missing or empty"
                (some (.obj [("is_reversible", .bool true), ("residual", .int 5),
                             ("stack", .arr [.int 3])]))) := by
  exact rfl

/-- Witness for C3's amended theorem: a real-subtype operand (the double
3.0) under the integer 2, with no residual field present; `add_two_top`
pushes the rounded sum (2: the real reads as 0 through the sint
accessor) and one undo restores the original stack element-wise. -/
theorem C3_add_two_top_undo_restores_stack_witness :
    (match add_two_top { doc := .obj [("is_reversible", .bool true),
                                      ("stack", .arr [.real 3, .int 2])], ptrs := [] } with
     | .ok st1 =>
        (match perform_undo st1.doc with
         | .ok d2 => some (objGetFirst d2 "stack")
         | _ => none)
     | _ => none)
      = some (some (.arr [.real 3, .int 2])) := by
  obtain ⟨d1, d2, h1, h2, h3⟩ :=
    C3_add_two_top_undo_restores_stack
      { doc := .obj [("is_reversible", .bool true), ("stack", .arr [.real 3, .int 2])],
        ptrs := [] }
      [] (.real 3) (.int 2) rfl rfl rfl rfl (Or.inl rfl)
  rfl

/-- C9 (amended): when the popped program object has an integer pc at or
past the end of its entrypoint array, `step` executes no instruction and
pushes the program back with pc unchanged and no error — but the pushed
value is not the program itself: the sandbox retain has incremented (or
created) its root ref field. -/
theorem C9_step_past_end (fu : Nat) (st : JState) (rest : List JVal)
    (pkvs : List (String × JVal)) (pc : Int) (ep : List JVal)
    (hstack : objGetFirst st.doc "stack" = some (.arr (rest ++ [.obj pkvs])))
    (hpc : objGetFirst (.obj pkvs) "pc" = some (.int pc))
    (hep : objGetFirst (.obj pkvs) "entrypoint" = some (.arr ep))
    (hge : (ep.length : Int) ≤ pc) :
    ∃ d3, step_jisp_op (fu+1) st = .ok { doc := d3, ptrs := st.ptrs } ∧
      objGetFirst d3 "stack" = some (.arr (rest ++ [jpm_doc_retain (.obj pkvs)])) ∧
      objGetFirst (jpm_doc_retain (.obj pkvs)) "pc" = some (.int pc) := by
  have hlen : ¬ ((rest ++ [JVal.obj pkvs]).length < 1) := by simp
  have hpcR : objGetFirst (jpm_doc_retain (.obj pkvs)) "pc" = some (.int pc) := by
    rw [objGetFirst_jpm_doc_retain_ne _ _ (by decide)]
    exact hpc
  have hepR : objGetFirst (jpm_doc_retain (.obj pkvs)) "entrypoint" = some (.arr ep) := by
    rw [objGetFirst_jpm_doc_retain_ne _ _ (by decide)]
    exact hep
  have hcond : ¬ ((0 : Int) ≤ pc ∧ pc.toNat < ep.length) := by omega
  unfold step_jisp_op REQUIRE_STACK
  simp only [hstack]
  rw [if_neg hlen]
  simp only [Res.bind]
  rw [arrRemoveLast_concat]
  simp only [jisp_mut_deep_copy, hpcR, JVal.isInt, if_true, JVal.getSint, hepR]
  rw [if_neg hcond]
  refine ⟨_, rfl, ?_, ?_⟩
  · rw [objGetFirst_record_patch_add_val _ _ _ _ (by decide), objGetFirst_objSetFirst_same,
        objGetFirst_objSetFirst_same, objGetFirst_jisp_stack_log_remove_last _ _ (by decide),
        hstack]
    rfl
  · simp [hpcR]

/-- Witness for C9's amended theorem: pc 5 on an empty entrypoint; the
pushed program keeps pc 5 and gains ref 1 from the sandbox retain. -/
theorem C9_step_past_end_witness :
    step_jisp_op 5
        { doc := .obj [("stack", .arr [.obj [("pc", .int 5), ("entrypoint", .arr [])]])],
          ptrs := [] }
      = .ok { doc := .obj [("stack",
                .arr [.obj [("pc", .int 5), ("entrypoint", .arr []), ("ref", .int 1)]])],
              ptrs := [] } := by
  obtain ⟨d3, h1, h2, h3⟩ :=
    C9_step_past_end 4
      { doc := .obj [("stack", .arr [.obj [("pc", .int 5), ("entrypoint", .arr [])]])],
        ptrs := [] }
      [] [("pc", .int 5), ("entrypoint", .arr [])] 5 [] rfl rfl rfl (by decide)
  rfl

/-- C9 (counterexample): the claim's gloss "past-the-end step is a no-op
on the program" fails: the pushed program differs from the popped one —
the sandbox retain appends a ref binding (the original program has no
ref; the pushed copy carries ref 1). -/
theorem C9_pushed_program_gains_ref :
    (Res.okDoc (step_jisp_op 5
        { doc := .obj [("stack", .arr [.obj [("pc", .int 5), ("entrypoint", .arr [])]])],
          ptrs := [] })).map (fun d => objGetFirst d "stack")
      = some (some (.arr [.obj [("pc", .int 5), ("entrypoint", .arr []), ("ref", .int 1)]])) ∧
    objGetFirst (.obj [("pc", .int 5), ("entrypoint", .arr [])]) "ref" = none :=
  ⟨rfl, rfl⟩

/-- The structured error `test` pushes on a subset-match failure. -/
def test_failure_error (e a : JVal) : JVal :=
  objAppend (jisp_create_error "test_failure" "Test failed: result mismatch") "details"
    (.obj [("expected", e), ("actual", a)])

/-- C6: `test` pops Expect (top) and Prog, sandbox-runs Prog (an
isolated retained copy), and pushes nothing when Expect subset-matches
the resulting document; on mismatch it pushes exactly one structured
error of kind test_failure whose details carry both the expected and the
actual value. -/
theorem C6_test_pushes_error_only_on_mismatch (fu : Nat) (st : JState) (rest : List JVal)
    (prog expect : JVal) (sub : JState)
    (hstack : objGetFirst st.doc "stack" = some (.arr (rest ++ [prog, expect])))
    (hrun : process_entrypoint fu { doc := jpm_doc_retain prog, ptrs := st.ptrs } = .ok sub) :
    (json_subset_equals expect sub.doc = true →
       ∃ d4, op_test (fu+1) st = .ok { doc := d4, ptrs := sub.ptrs } ∧
         objGetFirst d4 "stack" = some (.arr rest)) ∧
    (json_subset_equals expect sub.doc = false →
       ∃ d5, op_test (fu+1) st = .ok { doc := d5, ptrs := sub.ptrs } ∧
         objGetFirst d5 "stack"
           = some (.arr (rest ++ [test_failure_error expect sub.doc]))) ∧
    objGetFirst (test_failure_error expect sub.doc) "kind" = some (.str "test_failure") ∧
    objGetFirst (test_failure_error expect sub.doc) "details"
      = some (.obj [("expected", expect), ("actual", sub.doc)]) := by
  have hsplit : rest ++ [prog, expect] = (rest ++ [prog]) ++ [expect] := by simp
  have hlen : ¬ ((rest ++ [prog, expect]).length < 2) := by simp
  have hstackchain : ∀ s2 : List JVal,
      objGetFirst (objSetFirst (jisp_stack_log_remove_last
          (objSetFirst (jisp_stack_log_remove_last st.doc) "stack" (.arr (rest ++ [prog]))))
          "stack" (.arr s2)) "stack" = some (.arr s2) := by
    intro s2
    rw [objGetFirst_objSetFirst_same, objGetFirst_jisp_stack_log_remove_last _ _ (by decide),
        objGetFirst_objSetFirst_same, objGetFirst_jisp_stack_log_remove_last _ _ (by decide),
        hstack]
    rfl
  refine ⟨?_, ?_, rfl, rfl⟩
  · intro hmatch
    unfold op_test REQUIRE_STACK
    simp only [hstack]
    rw [if_neg hlen]
    simp only [Res.bind]
    rw [hsplit, arrRemoveLast_concat]
    simp only [arrRemoveLast_concat, jisp_mut_deep_copy]
    rw [hrun]
    simp only [Res.bind, hmatch, if_true]
    exact ⟨_, rfl, hstackchain rest⟩
  · intro hmiss
    unfold op_test REQUIRE_STACK
    simp only [hstack]
    rw [if_neg hlen]
    simp only [Res.bind]
    rw [hsplit, arrRemoveLast_concat]
    simp only [arrRemoveLast_concat, jisp_mut_deep_copy]
    rw [hrun]
    simp only [Res.bind, hmiss, Bool.false_eq_true, if_false]
    refine ⟨_, rfl, ?_⟩
    rw [objGetFirst_record_patch_add_val _ _ _ _ (by decide), objGetFirst_objSetFirst_same,
        hstackchain rest]
    rfl

/-- Witness for C6, scenario S6: expected x=2 against a program whose
final document has x=1; exactly one test_failure error is pushed, whose
details carry both values. -/
theorem C6_test_pushes_error_only_on_mismatch_witness :
    (Res.okDoc (op_test 10
        { doc := .obj [("stack", .arr [.obj [("x", .int 1), ("stack", .arr []),
                                             ("entrypoint", .arr [])],
                                       .obj [("x", .int 2)]])],
          ptrs := [] })).map (fun d => objGetFirst d "stack")
      = some (some (.arr [test_failure_error (.obj [("x", .int 2)])
          (.obj [("x", .int 1), ("stack", .arr []), ("entrypoint", .arr []),
                 ("ref", .int 1), ("call_stack", .arr [])])])) := by
  obtain ⟨d5, h1, h2⟩ :=
    (C6_test_pushes_error_only_on_mismatch 9
      { doc := .obj [("stack", .arr [.obj [("x", .int 1), ("stack", .arr []),
                                           ("entrypoint", .arr [])],
                                     .obj [("x", .int 2)]])],
        ptrs := [] }
      [] (.obj [("x", .int 1), ("stack", .arr []), ("entrypoint", .arr [])])
      (.obj [("x", .int 2)])
      { doc := .obj [("x", .int 1), ("stack", .arr []), ("entrypoint", .arr []),
                     ("ref", .int 1), ("call_stack", .arr [])], ptrs := [] }
      rfl rfl).2.1 rfl
  rfl

/-- Source `record_patch_with_val` cannot change the root's objectness. -/
theorem isObj_record_patch_with_val (d : JVal) (op path : String) (v : Option JVal) :
    (record_patch_with_val d op path v).isObj = d.isObj := by
  unfold record_patch_with_val
  by_cases hrev : is_reversible_enabled d
  · rw [if_pos hrev]
    unfold ensure_residual_array
    rw [ensure_root_object_isObj (isObj_of_reversible hrev)]
    cases hres : objGetFirst d "residual" with
    | none => simp only [hres]; rw [isObj_objSetFirst, isObj_objAppend]
    | some r =>
        cases r <;> simp only [hres] <;>
          first
            | rw [isObj_objSetFirst]
            | rfl
  · rw [if_neg hrev]

/-- Source `jisp_stack_log_remove_last` cannot change the root's objectness. -/
theorem isObj_jisp_stack_log_remove_last (d : JVal) :
    (jisp_stack_log_remove_last d).isObj = d.isObj := by
  unfold jisp_stack_log_remove_last
  cases hs : objGetFirst d "stack" with
  | none => rfl
  | some sv =>
      cases sv with
      | arr s =>
          simp only [hs]
          cases hrl : arrRemoveLast s with
          | none => rfl
          | some pr => exact isObj_record_patch_with_val _ _ _ _
      | null => rfl
      | bool b => rfl
      | int n => rfl
      | real r => rfl
      | str s2 => rfl
      | obj kvs => rfl

/-- Splitting a slash-free token list yields the single token. -/
theorem splitSegs_no_slash (l : List Char) (h : ¬ '/' ∈ l) : splitSegs l = [l] := by
  induction l with
  | nil => rfl
  | cons c rest ih =>
      simp only [List.mem_cons, not_or] at h
      unfold splitSegs
      rw [ih h.2]
      rw [if_neg (fun hc => h.1 hc.symm)]

/-- Decoding a tilde-free token is the identity. -/
theorem unescapeToken_no_tilde (l : List Char) (h : ¬ '~' ∈ l) : unescapeToken l = some l := by
  induction l with
  | nil => rfl
  | cons c rest ih =>
      simp only [List.mem_cons, not_or] at h
      unfold unescapeToken
      rw [if_neg (fun hc => h.1 hc.symm), ih h.2]
      rfl

/-- Resolving the single-segment pointer built from a plain key (no
slash, no tilde, nonempty) is exactly the first-match key lookup. -/
theorem ptr_get_single_key (d : JVal) (K : String) (hobj : d.isObj = true)
    (kne : K.data ≠ [])
    (hslash : ¬ '/' ∈ K.data) (htilde : ¬ '~' ∈ K.data) :
    yyjson_mut_ptr_get d ("/" ++ K) = objGetFirst d K := by
  have hdata : ("/" ++ K).data = '/' :: K.data := by
    rw [String.data_append]
    rfl
  have hne2 : ("/" ++ K) ≠ "" := by
    intro h
    rw [h] at hdata
    exact absurd hdata (by simp)
  unfold yyjson_mut_ptr_get
  rw [if_neg hne2]
  rw [hdata]
  simp only [if_pos rfl]
  rw [splitSegs_no_slash _ hslash]
  unfold walkSegs
  rw [unescapeToken_no_tilde _ htilde]
  cases d with
  | obj kvs =>
      cases hlook : objGetFirst (JVal.obj kvs) ⟨K.data⟩ with
      | none => simp [hlook]
      | some w => simp [hlook, walkSegs]
  | null => simp [JVal.isObj] at hobj
  | bool b => simp [JVal.isObj] at hobj
  | int n => simp [JVal.isObj] at hobj
  | real r => simp [JVal.isObj] at hobj
  | str s2 => simp [JVal.isObj] at hobj
  | arr xs => simp [JVal.isObj] at hobj

theorem isObj_record_patch_add_val (d : JVal) (path : String) (v : JVal) :
    (record_patch_add_val d path v).isObj = d.isObj :=
  isObj_record_patch_with_val d "add" path (some v)

theorem isObj_jisp_stack_push_copy_and_log (d : JVal) (e : JVal) :
    (jisp_stack_push_copy_and_log d e).isObj = d.isObj := by
  unfold jisp_stack_push_copy_and_log
  cases hs : objGetFirst d "stack" with
  | none => rfl
  | some sv =>
      cases sv with
      | arr s =>
          simp only [hs]
          rw [isObj_record_patch_add_val, isObj_objSetFirst]
      | null => rfl
      | bool b => rfl
      | int n => rfl
      | real r => rfl
      | str s2 => rfl
      | obj kvs => rfl

/-- What `duplicate_top` does to a stack ending in `v`: the top is
duplicated, every root binding other than stack and residual is
untouched, and the root stays an object. -/
theorem duplicate_top_spec (st : JState) (s0 : List JVal) (v : JVal)
    (hstack : objGetFirst st.doc "stack" = some (.arr (s0 ++ [v]))) :
    ∃ d2, duplicate_top st = .ok { st with doc := d2 } ∧
      objGetFirst d2 "stack" = some (.arr (s0 ++ [v, v])) ∧
      (∀ k, k ≠ "stack" → k ≠ "residual" → objGetFirst d2 k = objGetFirst st.doc k) ∧
      d2.isObj = st.doc.isObj := by
  unfold duplicate_top REQUIRE_STACK
  simp only [hstack]
  rw [if_neg (by simp)]
  simp only [Res.bind, arrRemoveLast_concat, jisp_mut_deep_copy]
  refine ⟨_, rfl, ?_, ?_, ?_⟩
  · rw [objGetFirst_record_patch_add_val _ _ _ _ (by decide), objGetFirst_objSetFirst_same,
        objGetFirst_record_patch_add_val _ _ _ _ (by decide), objGetFirst_objSetFirst_same,
        objGetFirst_jisp_stack_log_remove_last _ _ (by decide), hstack]
    rfl
  · intro k hk1 hk2
    rw [objGetFirst_record_patch_add_val _ _ _ _ hk2, objGetFirst_objSetFirst_ne _ _ _ _ hk1,
        objGetFirst_record_patch_add_val _ _ _ _ hk2, objGetFirst_objSetFirst_ne _ _ _ _ hk1,
        objGetFirst_jisp_stack_log_remove_last _ _ hk2]
  · rw [isObj_record_patch_add_val, isObj_objSetFirst, isObj_record_patch_add_val,
        isObj_objSetFirst, isObj_jisp_stack_log_remove_last]

/-- What `pop_and_store` does with a fresh string key: the two values
are popped and the binding is appended, so the key lookup afterwards
finds the stored value. -/
theorem pop_and_store_spec (st : JState) (s2 : List JVal) (w : JVal) (K : String)
    (hstack : objGetFirst st.doc "stack" = some (.arr (s2 ++ [w, .str K])))
    (hfresh : objGetFirst st.doc K = none)
    (hobj : st.doc.isObj = true)
    (hKstack : K ≠ "stack") (hKres : K ≠ "residual") :
    ∃ d2, pop_and_store st = .ok { st with doc := d2 } ∧
      objGetFirst d2 "stack" = some (.arr s2) ∧
      objGetFirst d2 K = some w ∧
      d2.isObj = true := by
  have hsplit : s2 ++ [w, .str K] = (s2 ++ [w]) ++ [.str K] := by simp
  have hlen : ¬ ((s2 ++ [w, .str K]).length < 2) := by simp
  have hK4 : objGetFirst (objSetFirst (jisp_stack_log_remove_last
      (objSetFirst (jisp_stack_log_remove_last st.doc) "stack" (.arr (s2 ++ [w]))))
      "stack" (.arr s2)) K = none := by
    rw [objGetFirst_objSetFirst_ne _ _ _ _ hKstack,
        objGetFirst_jisp_stack_log_remove_last _ _ hKres,
        objGetFirst_objSetFirst_ne _ _ _ _ hKstack,
        objGetFirst_jisp_stack_log_remove_last _ _ hKres]
    exact hfresh
  have hobj4 : (objSetFirst (jisp_stack_log_remove_last
      (objSetFirst (jisp_stack_log_remove_last st.doc) "stack" (.arr (s2 ++ [w]))))
      "stack" (.arr s2)).isObj = true := by
    rw [isObj_objSetFirst, isObj_jisp_stack_log_remove_last, isObj_objSetFirst,
        isObj_jisp_stack_log_remove_last]
    exact hobj
  unfold pop_and_store REQUIRE_STACK
  simp only [hstack]
  rw [if_neg hlen]
  simp only [Res.bind]
  rw [hsplit, arrRemoveLast_concat]
  simp only [arrRemoveLast_concat, hK4, Option.isSome_none, Bool.false_eq_true, if_false]
  refine ⟨_, rfl, ?_, ?_, ?_⟩
  · rw [objGetFirst_record_patch_add_val _ _ _ _ (by decide),
        objGetFirst_objAppend_ne _ _ _ _ (Ne.symm hKstack),
        objGetFirst_objSetFirst_same,
        objGetFirst_jisp_stack_log_remove_last _ _ (by decide),
        objGetFirst_objSetFirst_same,
        objGetFirst_jisp_stack_log_remove_last _ _ (by decide), hstack]
    rfl
  · rw [objGetFirst_record_patch_add_val _ _ _ _ hKres,
        objGetFirst_objAppend_self K w hobj4 hK4]
  · rw [isObj_record_patch_add_val, isObj_objAppend]
    exact hobj4

/-- What `get` does with a single-key pointer to a stored root value:
the path string is popped and a deep copy of the binding is pushed. -/
theorem json_get_spec_key (st : JState) (s3 : List JVal) (w : JVal) (K : String)
    (hstack : objGetFirst st.doc "stack" = some (.arr (s3 ++ [.str ("/" ++ K)])))
    (hKval : objGetFirst st.doc K = some w)
    (hobj : st.doc.isObj = true)
    (hne : K.data ≠ []) (hslash : ¬ '/' ∈ K.data) (htilde : ¬ '~' ∈ K.data)
    (hKstack : K ≠ "stack") (hKres : K ≠ "residual") :
    ∃ d2, json_get st = .ok { st with doc := d2 } ∧
      objGetFirst d2 "stack" = some (.arr (s3 ++ [w])) := by
  have hlen : ¬ ((s3 ++ [JVal.str ("/" ++ K)]).length < 1) := by simp
  have hnotroot : ¬ ("/" ++ K) = "/" := by
    intro h
    have h2 := congrArg String.data h
    rw [String.data_append] at h2
    simp at h2
    exact hne h2
  unfold json_get REQUIRE_STACK
  simp only [hstack]
  rw [if_neg hlen]
  simp only [Res.bind, arrRemoveLast_concat]
  cases hg : residual_group_begin st.doc with
  | some g =>
      simp only [residual_group_add_patch_with_val]
      rw [if_neg hnotroot]
      have hobj1 : (objSetFirst st.doc "stack" (JVal.arr s3)).isObj = true := by
        rw [isObj_objSetFirst]
        exact hobj
      have hKval1 : objGetFirst (objSetFirst st.doc "stack" (JVal.arr s3)) K = some w := by
        rw [objGetFirst_objSetFirst_ne _ _ _ _ hKstack]
        exact hKval
      rw [ptr_get_single_key _ _ hobj1 hne hslash htilde, hKval1]
      simp only [jisp_mut_deep_copy, residual_group_commit_opt]
      refine ⟨_, rfl, ?_⟩
      rw [objGetFirst_residual_group_commit _ _ _ (by decide), objGetFirst_objSetFirst_same,
          objGetFirst_objSetFirst_same, hstack]
      rfl
  | none =>
      have hrevF : is_reversible_enabled st.doc = false := by
        unfold residual_group_begin at hg
        by_cases h : is_reversible_enabled st.doc
        · rw [if_pos h] at hg; cases hg
        · simpa using h
      have h1 : is_reversible_enabled (objSetFirst st.doc "stack" (JVal.arr s3)) = false := by
        rw [is_reversible_objSetFirst_ne _ _ _ (by decide)]
        exact hrevF
      simp only [residual_group_add_patch_with_val,
                 record_patch_with_val_not_reversible _ _ _ _ h1]
      rw [if_neg hnotroot]
      have hobj1 : (objSetFirst st.doc "stack" (JVal.arr s3)).isObj = true := by
        rw [isObj_objSetFirst]
        exact hobj
      have hKval1 : objGetFirst (objSetFirst st.doc "stack" (JVal.arr s3)) K = some w := by
        rw [objGetFirst_objSetFirst_ne _ _ _ _ hKstack]
        exact hKval
      rw [ptr_get_single_key _ _ hobj1 hne hslash htilde, hKval1]
      have h2 : is_reversible_enabled
          (objSetFirst (objSetFirst st.doc "stack" (JVal.arr s3)) "stack" (JVal.arr (s3 ++ [w])))
          = false := by
        rw [is_reversible_objSetFirst_ne _ _ _ (by decide)]
        exact h1
      simp only [jisp_mut_deep_copy,
                 record_patch_with_val_not_reversible _ _ _ _ h2, residual_group_commit_opt]
      refine ⟨_, rfl, ?_⟩
      rw [objGetFirst_objSetFirst_same, objGetFirst_objSetFirst_same, hstack]
      rfl

/-- C8 (amended): `duplicate_top`, then pushing K and `pop_and_store`,
then pushing the pointer for K and `get`, leaves a value deep-equal to
the original top on the stack — provided K is not already a key of the
root object (otherwise the duplicate binding appended by
`yyjson_mut_obj_add_val` is shadowed by the first binding, which pointer
lookup returns), is non-empty, has no slash or tilde (so the pointer
/K denotes the key K), and is not the residual key. -/
theorem C8_dup_store_get_roundtrip (st : JState) (s0 : List JVal) (v : JVal) (K : String)
    (hstack : objGetFirst st.doc "stack" = some (.arr (s0 ++ [v])))
    (hfresh : objGetFirst st.doc K = none)
    (hne : K.data ≠ []) (hslash : ¬ '/' ∈ K.data) (htilde : ¬ '~' ∈ K.data)
    (hKres : K ≠ "residual") :
    ∃ st1 st2 st3,
      duplicate_top st = .ok st1 ∧
      pop_and_store { st1 with doc := jisp_stack_push_copy_and_log st1.doc (.str K) } = .ok st2 ∧
      json_get { st2 with doc := jisp_stack_push_copy_and_log st2.doc (.str ("/" ++ K)) } = .ok st3 ∧
      objGetFirst st3.doc "stack" = some (.arr (s0 ++ [v, v])) := by
  have hobj : st.doc.isObj = true := objGetFirst_some_isObj hstack
  have hKstack : K ≠ "stack" := by
    intro h
    rw [h, hstack] at hfresh
    cases hfresh
  obtain ⟨d1, h1run, h1stack, h1pres, h1obj⟩ := duplicate_top_spec st s0 v hstack
  have hp1stack : objGetFirst (jisp_stack_push_copy_and_log d1 (.str K)) "stack"
      = some (.arr (s0 ++ [v, v] ++ [.str K])) := stack_after_push_copy_log _ h1stack
  have hp1K : objGetFirst (jisp_stack_push_copy_and_log d1 (.str K)) K = none := by
    rw [objGetFirst_push_copy_log_ne _ _ _ hKstack hKres, h1pres K hKstack hKres]
    exact hfresh
  have hp1obj : (jisp_stack_push_copy_and_log d1 (.str K)).isObj = true := by
    rw [isObj_jisp_stack_push_copy_and_log, h1obj]
    exact hobj
  obtain ⟨d2, h2run, h2stack, h2K, h2obj⟩ :=
    pop_and_store_spec ⟨jisp_stack_push_copy_and_log d1 (.str K), st.ptrs⟩ (s0 ++ [v]) v K
      (by simpa using hp1stack) hp1K hp1obj hKstack hKres
  have hp2stack : objGetFirst (jisp_stack_push_copy_and_log d2 (.str ("/" ++ K))) "stack"
      = some (.arr (s0 ++ [v] ++ [.str ("/" ++ K)])) := stack_after_push_copy_log _ h2stack
  have hp2K : objGetFirst (jisp_stack_push_copy_and_log d2 (.str ("/" ++ K))) K = some v := by
    rw [objGetFirst_push_copy_log_ne _ _ _ hKstack hKres]
    exact h2K
  have hp2obj : (jisp_stack_push_copy_and_log d2 (.str ("/" ++ K))).isObj = true := by
    rw [isObj_jisp_stack_push_copy_and_log]
    exact h2obj
  obtain ⟨d3, h3run, h3stack⟩ :=
    json_get_spec_key ⟨jisp_stack_push_copy_and_log d2 (.str ("/" ++ K)), st.ptrs⟩
      (s0 ++ [v]) v K hp2stack hp2K hp2obj hne hslash htilde hKstack hKres
  refine ⟨_, _, _, h1run, h2run, h3run, ?_⟩
  simpa using h3stack

/-- C8 (counterexample): with K an existing root key ("x", already
bound to 1), the duplicate binding stored by `pop_and_store` is
shadowed: `get /x` returns the first binding (the old 1), so the final
top of stack is 1, not the original top 7. -/
theorem C8_existing_key_returns_old_value :
    (Res.okDoc (process_entrypoint 32
        { doc := .obj [("x", .int 1), ("stack", .arr [.int 7]),
                       ("entrypoint", .arr [.obj [(".", .str "duplicate_top")], .str "x",
                                            .obj [(".", .str "pop_and_store")], .str "/x",
                                            .obj [(".", .str "get")]])],
          ptrs := [] })).map (fun d => objGetFirst d "stack")
      = some (some (.arr [.int 7, .int 1])) :=
  rfl

/-- Witness for C8's amended theorem: a fresh key "y" over stack [7];
the final stack is [7, 7] (top deep-equal the original top). -/
theorem C8_dup_store_get_roundtrip_witness :
    (match duplicate_top { doc := .obj [("stack", .arr [.int 7])], ptrs := [] } with
     | .ok st1 =>
        (match pop_and_store { st1 with
            doc := jisp_stack_push_copy_and_log st1.doc (.str "y") } with
         | .ok st2 =>
            (match json_get { st2 with
                doc := jisp_stack_push_copy_and_log st2.doc (.str "/y") } with
             | .ok st3 => objGetFirst st3.doc "stack"
             | _ => none)
         | _ => none)
     | _ => none)
      = some (.arr [.int 7, .int 7]) := by
  obtain ⟨st1, st2, st3, h1, h2, h3, h4⟩ :=
    C8_dup_store_get_roundtrip { doc := .obj [("stack", .arr [.int 7])], ptrs := [] }
      [] (.int 7) "y" rfl rfl (by decide) (by decide) (by decide) (by decide)
  rfl
